import Mathlib

/-!
Verification development for the dual-stage reasoning/response orchestration
service (Rust sources under src/).  The definitions below are a shallow
embedding of the Rust code: pure functions are translated directly, the
streaming orchestration task is modelled as a pure function from the lists
of items yielded by the two provider streams to the list of emitted SSE
events, and Rust u32 arithmetic is modelled on Nat with explicit mod 2^32
wrapping where overflow matters (release-mode Rust semantics).
Monetary amounts (Rust f64) are modelled as exact rationals.
-/

namespace DeepClaude

/-! ## Data model: src/models/request.rs -/

/-- Role of a chat message (src/models/request.rs, enum Role). -/
inductive Role
  | system
  | user
  | assistant
deriving DecidableEq

/-- A single chat message (src/models/request.rs, struct Message). -/
structure Message where
  role : Role
  content : String
deriving DecidableEq

/-- A JSON value, modelling serde_json::Value.  Objects are association
lists; the Rust map insert replaces the value of an existing key, which is
mirrored by Json.objInsert below. -/
inductive Json
  | null
  | bool (b : Bool)
  | num (q : ℚ)
  | str (s : String)
  | arr (items : List Json)
  | obj (fields : List (String × Json))

/-- Lookup of a key in a JSON object, modelling serde_json::Value::get. -/
def Json.get : Json → String → Option Json
  | .obj fields, k => (fields.find? (fun p => p.1 = k)).map (·.2)
  | _, _ => none

/-- Map insert: replace the value of an existing key, else append. -/
def Json.objInsert (fields : List (String × Json)) (k : String) (v : Json) :
    List (String × Json) :=
  if fields.any (fun p => p.1 = k) then
    fields.map (fun p => if p.1 = k then (k, v) else p)
  else
    fields ++ [(k, v)]

/-- Per-provider request configuration (src/models/request.rs, struct
ApiConfig).  Headers never influence the request body, so only the body
override map is carried. -/
structure ApiConfig where
  headers : List (String × String)
  body : Json

/-- The inbound API request (src/models/request.rs, struct ApiRequest). -/
structure ApiRequest where
  stream : Bool
  verbose : Bool
  system : Option String
  messages : List Message
  deepseek_config : ApiConfig
  anthropic_config : ApiConfig

/-- Validation of the system-prompt sources
(src/models/request.rs, ApiRequest::validate_system_prompt): the request is
invalid exactly when a root system field and an in-list system message are
both present. -/
def ApiRequest.validate_system_prompt (req : ApiRequest) : Bool :=
  let system_in_messages := req.messages.any (fun msg => msg.role = Role.system)
  !(req.system.isSome && system_in_messages)

/-- Message list construction
(src/models/request.rs, ApiRequest::get_messages_with_system): pushes a
system message built from the root field when present, then appends the
original messages with every system-role entry filtered out. -/
def ApiRequest.get_messages_with_system (req : ApiRequest) : List Message :=
  let head := match req.system with
    | some s => [Message.mk Role.system s]
    | none => []
  head ++ req.messages.filter (fun msg => !(msg.role = Role.system))

/-- System prompt retrieval
(src/models/request.rs, ApiRequest::get_system_prompt). -/
def ApiRequest.get_system_prompt (req : ApiRequest) : Option String :=
  match req.system with
  | some s => some s
  | none => (req.messages.find? (fun msg => msg.role = Role.system)).map (·.content)

/-! ## Configuration and pricing: src/config.rs -/

/-- Server binding options (src/config.rs, struct ServerConfig). -/
structure ServerConfig where
  host : String
  port : Nat
deriving DecidableEq

/-- DeepSeek pricing rates, per million tokens (src/config.rs). -/
structure DeepSeekPricing where
  input_cache_hit_price : ℚ
  input_cache_miss_price : ℚ
  output_price : ℚ
deriving DecidableEq

/-- Pricing rates for one Anthropic model tier (src/config.rs). -/
structure ModelPricing where
  input_price : ℚ
  output_price : ℚ
  cache_write_price : ℚ
  cache_read_price : ℚ
deriving DecidableEq

/-- Anthropic pricing tiers (src/config.rs, struct AnthropicPricing). -/
structure AnthropicPricing where
  claude_3_sonnet : ModelPricing
  claude_3_haiku : ModelPricing
  claude_3_opus : ModelPricing
deriving DecidableEq

/-- Pricing table (src/config.rs, struct PricingConfig). -/
structure PricingConfig where
  deepseek : DeepSeekPricing
  anthropic : AnthropicPricing
deriving DecidableEq

/-- Application configuration (src/config.rs, struct Config). -/
structure Config where
  server : ServerConfig
  pricing : PricingConfig
deriving DecidableEq

/-- Default configuration values (src/config.rs, impl Default for Config). -/
def Config.default : Config :=
  { server := { host := "127.0.0.1", port := 3000 }
    pricing :=
      { deepseek :=
          { input_cache_hit_price := 14/100
            input_cache_miss_price := 55/100
            output_price := 219/100 }
        anthropic :=
          { claude_3_sonnet :=
              { input_price := 3, output_price := 15
                cache_write_price := 375/100, cache_read_price := 30/100 }
            claude_3_haiku :=
              { input_price := 80/100, output_price := 4
                cache_write_price := 1, cache_read_price := 8/100 }
            claude_3_opus :=
              { input_price := 15, output_price := 75
                cache_write_price := 1875/100, cache_read_price := 150/100 } } } }

/-! ## Cost calculator: src/handlers.rs -/

/-- Wrapping u32 subtraction.  Rust release builds compile the expression
input_tokens - cached_tokens on u32 to two's-complement wrapping
subtraction (a debug build would abort on underflow instead); both operands
are u32 values, i.e. below 2^32. -/
def u32Sub (a b : Nat) : Nat := (a + 2 ^ 32 - b) % 2 ^ 32

/-- Reasoning-provider cost (src/handlers.rs, calculate_deepseek_cost).
The cache-miss component uses the raw u32 subtraction of the source,
modelled with wrapping semantics. -/
def calculate_deepseek_cost (input_tokens output_tokens _reasoning_tokens
    cached_tokens : Nat) (config : Config) : ℚ :=
  let cache_hit_cost :=
    (cached_tokens : ℚ) / 1000000 * config.pricing.deepseek.input_cache_hit_price
  let cache_miss_cost :=
    (u32Sub input_tokens cached_tokens : ℚ) / 1000000 *
      config.pricing.deepseek.input_cache_miss_price
  let output_cost :=
    (output_tokens : ℚ) / 1000000 * config.pricing.deepseek.output_price
  cache_hit_cost + cache_miss_cost + output_cost

/-- Modelled from the spec: the reasoning-cost formula of spec section 4.3,
with the cache-miss token count clamped to zero when the reported cached
tokens exceed the input tokens.  Nat subtraction is truncated, which is
exactly the clamping the spec asks for.  Used only to compare the source
function against the specified behaviour. -/
def reasoningCostSpec (input_tokens output_tokens cached_tokens : Nat)
    (config : Config) : ℚ :=
  (cached_tokens : ℚ) / 1000000 * config.pricing.deepseek.input_cache_hit_price +
    ((input_tokens - cached_tokens : Nat) : ℚ) / 1000000 *
      config.pricing.deepseek.input_cache_miss_price +
    (output_tokens : ℚ) / 1000000 * config.pricing.deepseek.output_price

/-- Substring test on character lists, modelling Rust str::contains with a
string pattern. -/
def listContainsSub (pat : List Char) : List Char → Bool
  | [] => pat.isPrefixOf []
  | c :: t => pat.isPrefixOf (c :: t) || listContainsSub pat t

/-- Substring test on strings, modelling Rust str::contains. -/
def strContains (hay pat : String) : Bool :=
  listContainsSub pat.toList hay.toList

/-- Response-provider cost (src/handlers.rs, calculate_anthropic_cost):
the pricing tier is selected by substring match on the model identifier,
defaulting to the sonnet tier. -/
def calculate_anthropic_cost (model : String) (input_tokens output_tokens
    cache_write_tokens cache_read_tokens : Nat) (config : Config) : ℚ :=
  let pricing :=
    if strContains model "claude-3-5-sonnet" then
      config.pricing.anthropic.claude_3_sonnet
    else if strContains model "claude-3-5-haiku" then
      config.pricing.anthropic.claude_3_haiku
    else if strContains model "claude-3-opus" then
      config.pricing.anthropic.claude_3_opus
    else
      config.pricing.anthropic.claude_3_sonnet
  (input_tokens : ℚ) / 1000000 * pricing.input_price +
    (output_tokens : ℚ) / 1000000 * pricing.output_price +
    (cache_write_tokens : ℚ) / 1000000 * pricing.cache_write_price +
    (cache_read_tokens : ℚ) / 1000000 * pricing.cache_read_price

/-- Decimal digits of a natural number, most significant first, produced
with explicit fuel so that the definition reduces inside the kernel.  The
first argument is the fuel; natStr always supplies enough. -/
def digitsRev : Nat → Nat → List Nat
  | 0, _ => []
  | fuel + 1, n => if n = 0 then [] else n % 10 :: digitsRev fuel (n / 10)

/-- Decimal rendering of a natural number as characters. -/
def natStr (n : Nat) : List Char :=
  if n = 0 then ['0']
  else ((digitsRev n n).reverse.map (fun d => Char.ofNat (48 + d)))

/-- Round a rational to the nearest integer, halves up: the floor of
q + 1/2, computed directly on numerator and denominator so that the
definition evaluates inside the kernel. -/
def roundRat (q : ℚ) : ℤ := Int.fdiv (2 * q.num + q.den) (2 * q.den)

/-- Cost formatting (src/handlers.rs, format_cost): the Rust code renders
the f64 cost with a dollar prefix and three decimal places.  The rational
model rounds the cost to the nearest thousandth and prints sign, integer
part, a dot and a three-digit zero-padded fraction. -/
def format_cost (cost : ℚ) : String :=
  let m : ℤ := roundRat (cost * 1000)
  let intPart := natStr (m.natAbs / 1000)
  let fracDigits := natStr (m.natAbs % 1000)
  let frac := List.replicate (3 - fracDigits.length) '0' ++ fracDigits
  String.mk ((if m < 0 then ['$', '-'] else ['$']) ++ intPart ++ '.' :: frac)

/-- Shape check for the display format claimed by the spec: a dollar sign,
a non-empty run of digits, a dot, and exactly three digits. -/
def threeDecShape (s : String) : Bool :=
  match s.data with
  | '$' :: rest =>
    let ip := rest.takeWhile Char.isDigit
    let rest2 := rest.dropWhile Char.isDigit
    (!ip.isEmpty) &&
      match rest2 with
      | '.' :: fp => fp.length = 3 && fp.all Char.isDigit
      | _ => false
  | _ => false

/-! ## Error taxonomy: src/error.rs -/

/-- Application error type (src/error.rs, enum ApiError). -/
inductive ApiError
  | badRequest (message : String)
  | missingHeader (header : String)
  | invalidSystemPrompt
  | deepSeekError (message : String) (type_ : String)
      (param : Option String) (code : Option String)
  | anthropicError (message : String) (type_ : String)
      (param : Option String) (code : Option String)
  | internal (message : String)
  | other (message : String)
deriving DecidableEq

/-- Display rendering of an error, mirroring the thiserror format strings
attached to each variant in src/error.rs. -/
def ApiError.toString : ApiError → String
  | .badRequest m => "Invalid request: " ++ m
  | .missingHeader h => "Missing required header: " ++ h
  | .invalidSystemPrompt => "Invalid system prompt configuration"
  | .deepSeekError m _ _ _ => "DeepSeek API error: " ++ m
  | .anthropicError m _ _ _ => "Anthropic API error: " ++ m
  | .internal m => "Internal server error: " ++ m
  | .other m => "Other error: " ++ m

/-! ## Provider wire types: src/clients/deepseek.rs and anthropic.rs -/

/-- Nested prompt-token details (src/clients/deepseek.rs, struct
PromptTokensDetails). -/
structure PromptTokensDetails where
  cached_tokens : Nat
deriving DecidableEq

/-- Nested completion-token details (src/clients/deepseek.rs, struct
CompletionTokensDetails). -/
structure CompletionTokensDetails where
  reasoning_tokens : Nat
deriving DecidableEq

/-- DeepSeek usage report (src/clients/deepseek.rs, struct Usage). -/
structure DSUsage where
  prompt_tokens : Nat
  completion_tokens : Nat
  total_tokens : Nat
  prompt_tokens_details : PromptTokensDetails
  completion_tokens_details : CompletionTokensDetails
  prompt_cache_hit_tokens : Nat
  prompt_cache_miss_tokens : Nat
deriving DecidableEq

/-- Non-streaming DeepSeek assistant message (src/clients/deepseek.rs,
struct AssistantMessage). -/
structure AssistantMessage where
  role : String
  content : Option String
  reasoning_content : Option String
deriving DecidableEq

/-- Non-streaming DeepSeek choice (src/clients/deepseek.rs, struct Choice;
the free-form logprobs payload is irrelevant to every claim and elided). -/
structure DSChoice where
  index : Int
  message : AssistantMessage
  finish_reason : Option String
deriving DecidableEq

/-- Non-streaming DeepSeek response (src/clients/deepseek.rs, struct
DeepSeekResponse). -/
structure DeepSeekResponse where
  id : String
  object : String
  created : Int
  model : String
  choices : List DSChoice
  usage : DSUsage
  system_fingerprint : String
deriving DecidableEq

/-- Streaming DeepSeek delta (src/clients/deepseek.rs, struct StreamDelta). -/
structure StreamDelta where
  role : Option String
  content : Option String
  reasoning_content : Option String
deriving DecidableEq

/-- Streaming DeepSeek choice (src/clients/deepseek.rs, struct StreamChoice). -/
structure StreamChoice where
  index : Int
  delta : StreamDelta
  finish_reason : Option String
deriving DecidableEq

/-- Streaming DeepSeek chunk (src/clients/deepseek.rs, struct
StreamResponse). -/
structure StreamResponse where
  id : String
  object : String
  created : Int
  model : String
  choices : List StreamChoice
  usage : Option DSUsage
  system_fingerprint : String
deriving DecidableEq

/-- Anthropic content block (src/clients/anthropic.rs, struct ContentBlock). -/
structure AnContentBlock where
  content_type : String
  text : String
deriving DecidableEq

/-- Anthropic usage report (src/clients/anthropic.rs, struct Usage). -/
structure AnUsage where
  input_tokens : Nat
  output_tokens : Nat
  cache_creation_input_tokens : Nat
  cache_read_input_tokens : Nat
deriving DecidableEq

/-- Anthropic non-streaming response (src/clients/anthropic.rs, struct
AnthropicResponse). -/
structure AnthropicResponse where
  id : String
  response_type : String
  role : String
  model : String
  content : List AnContentBlock
  stop_reason : Option String
  stop_sequence : Option String
  usage : AnUsage
deriving DecidableEq

/-- Anthropic streaming content delta (src/clients/anthropic.rs, struct
ContentDelta). -/
structure ContentDelta where
  delta_type : String
  text : String
deriving DecidableEq

/-- Anthropic streaming message delta (src/clients/anthropic.rs, struct
MessageDelta). -/
structure AnMessageDelta where
  stop_reason : Option String
  stop_sequence : Option String
deriving DecidableEq

/-- Anthropic streaming event (src/clients/anthropic.rs, enum StreamEvent). -/
inductive AnStreamEvent
  | messageStart (message : AnthropicResponse)
  | contentBlockStart (index : Nat) (content_block : AnContentBlock)
  | contentBlockDelta (index : Nat) (delta : ContentDelta)
  | contentBlockStop (index : Nat)
  | messageDelta (delta : AnMessageDelta) (usage : Option AnUsage)
  | messageStop
  | ping
deriving DecidableEq

/-! ## Outbound response types: src/models/response.rs -/

/-- Caller-facing content block (src/models/response.rs, struct
ContentBlock). -/
structure ContentBlock where
  content_type : String
  text : String
deriving DecidableEq

/-- Constructor for a plain text block (src/models/response.rs,
ContentBlock::text). -/
def ContentBlock.text_ (text : String) : ContentBlock :=
  { content_type := "text", text := text }

/-- Conversion from the Anthropic wire block (src/models/response.rs,
ContentBlock::from_anthropic). -/
def ContentBlock.from_anthropic (block : AnContentBlock) : ContentBlock :=
  { content_type := block.content_type, text := block.text }

/-- Caller-facing DeepSeek usage summary (src/models/response.rs, struct
DeepSeekUsage). -/
structure DeepSeekUsage where
  input_tokens : Nat
  output_tokens : Nat
  reasoning_tokens : Nat
  cached_input_tokens : Nat
  total_tokens : Nat
  total_cost : String
deriving DecidableEq

/-- Caller-facing Anthropic usage summary (src/models/response.rs, struct
AnthropicUsage). -/
structure AnthropicUsage where
  input_tokens : Nat
  output_tokens : Nat
  cached_write_tokens : Nat
  cached_read_tokens : Nat
  total_tokens : Nat
  total_cost : String
deriving DecidableEq

/-- Conversion of Anthropic usage (src/models/response.rs,
AnthropicUsage::from_anthropic): total is input plus output, and the cost
field is a placeholder that the handler overwrites. -/
def AnthropicUsage.from_anthropic (usage : AnUsage) : AnthropicUsage :=
  { input_tokens := usage.input_tokens
    output_tokens := usage.output_tokens
    cached_write_tokens := usage.cache_creation_input_tokens
    cached_read_tokens := usage.cache_read_input_tokens
    total_tokens := usage.input_tokens + usage.output_tokens
    total_cost := "$0.00" }

/-- Combined usage summary (src/models/response.rs, struct CombinedUsage). -/
structure CombinedUsage where
  total_cost : String
  deepseek_usage : DeepSeekUsage
  anthropic_usage : AnthropicUsage
deriving DecidableEq

/-- Aggregated API response (src/models/response.rs, struct ApiResponse).
The created wall-clock timestamp and the verbose raw provider passthrough
are environmental data irrelevant to every claim and elided. -/
structure ApiResponse where
  content : List ContentBlock
  combined_usage : CombinedUsage
deriving DecidableEq

/-! ## Non-streaming orchestration: src/handlers.rs, fn chat

The handler is sequential code performing two upstream HTTP calls.  It is
embedded as a pure function over two call oracles: dsCall stands for
DeepSeekClient::chat and anCall for AnthropicClient::chat.  A claim that
the response provider is never invoked is rendered as the result being the
same for every anCall oracle. -/

/-- Non-streaming chat handler (src/handlers.rs, fn chat): validate,
call DeepSeek, extract reasoning (failing with a missing_content error when
absent), wrap it in thinking tags, append it as an assistant turn, call
Anthropic, and assemble the combined response with computed costs. -/
def chat (config : Config) (req : ApiRequest)
    (dsCall : List Message → ApiConfig → Except ApiError DeepSeekResponse)
    (anCall : List Message → Option String → ApiConfig → Except ApiError AnthropicResponse) :
    Except ApiError ApiResponse :=
  if req.validate_system_prompt = false then .error .invalidSystemPrompt
  else
    let messages := req.get_messages_with_system
    match dsCall messages req.deepseek_config with
    | .error e => .error e
    | .ok dsr =>
      match dsr.choices.head?.bind (fun c => c.message.reasoning_content) with
      | none =>
        .error (.deepSeekError "No reasoning content in response"
          "missing_content" none none)
      | some reasoning =>
        let thinking_content := "<thinking>\n" ++ reasoning ++ "\n</thinking>"
        let anthropic_messages :=
          messages ++ [Message.mk Role.assistant thinking_content]
        match anCall anthropic_messages req.get_system_prompt
            req.anthropic_config with
        | .error e => .error e
        | .ok anr =>
          let deepseek_cost := calculate_deepseek_cost
            dsr.usage.prompt_tokens dsr.usage.completion_tokens
            dsr.usage.completion_tokens_details.reasoning_tokens
            dsr.usage.prompt_tokens_details.cached_tokens config
          let anthropic_cost := calculate_anthropic_cost anr.model
            anr.usage.input_tokens anr.usage.output_tokens
            anr.usage.cache_creation_input_tokens
            anr.usage.cache_read_input_tokens config
          .ok
            { content := ContentBlock.text_ thinking_content ::
                anr.content.map ContentBlock.from_anthropic
              combined_usage :=
                { total_cost := format_cost (deepseek_cost + anthropic_cost)
                  deepseek_usage :=
                    { input_tokens := dsr.usage.prompt_tokens
                      output_tokens := dsr.usage.completion_tokens
                      reasoning_tokens :=
                        dsr.usage.completion_tokens_details.reasoning_tokens
                      cached_input_tokens :=
                        dsr.usage.prompt_tokens_details.cached_tokens
                      total_tokens := dsr.usage.total_tokens
                      total_cost := format_cost deepseek_cost }
                  anthropic_usage :=
                    { input_tokens := anr.usage.input_tokens
                      output_tokens := anr.usage.output_tokens
                      cached_write_tokens :=
                        anr.usage.cache_creation_input_tokens
                      cached_read_tokens := anr.usage.cache_read_input_tokens
                      total_tokens :=
                        anr.usage.input_tokens + anr.usage.output_tokens
                      total_cost := format_cost anthropic_cost } } }

/-! ## Streaming orchestration: src/handlers.rs, fn chat_stream

The spawned producer task writes SSE events into a channel.  It is embedded
as a pure function from the two lists of items yielded by the provider
streams (in yield order) to the list of emitted events.  Items after an
early loop exit are never polled by the Rust code and are likewise ignored
by the model. -/

/-- One caller-facing streaming event (src/models/response.rs, enum
StreamEvent; the start timestamp is environmental and elided). -/
inductive OutEvent
  | start
  | content (content : List ContentBlock)
  | usage (usage : CombinedUsage)
  | done
  | error (message : String) (code : Nat)
deriving DecidableEq

/-- Outcome of consuming the DeepSeek stream
(src/handlers.rs, chat_stream, first while loop): the emitted content
events, the accumulated reasoning text, the last usage report stored, and
whether the loop returned early on a provider-level Err. -/
structure DsPhaseResult where
  events : List OutEvent
  reasoning : String
  usage : Option DSUsage
  errored : Bool

/-- Does a DeepSeek chunk act as the end-of-reasoning sentinel: its first
choice exists and carries a null reasoning_content (src/handlers.rs,
chat_stream, the break). -/
def dsSentinel (r : StreamResponse) : Bool :=
  match r.choices.head? with
  | some choice => choice.delta.reasoning_content.isNone
  | none => false

/-- The content events emitted for one DeepSeek chunk: one text_delta
content event when the first choice carries a non-empty reasoning delta,
nothing otherwise. -/
def dsEmittedFor (r : StreamResponse) : List OutEvent :=
  match r.choices.head? with
  | some choice =>
    match choice.delta.reasoning_content with
    | some reasoning =>
      if reasoning ≠ "" then
        [OutEvent.content [ContentBlock.mk "text_delta" reasoning]]
      else []
    | none => []
  | none => []

/-- The reasoning text accumulated from one DeepSeek chunk. -/
def dsAccumulatedFor (r : StreamResponse) : String :=
  match r.choices.head? with
  | some choice =>
    match choice.delta.reasoning_content with
    | some reasoning => if reasoning ≠ "" then reasoning else ""
    | none => ""
  | none => ""

/-- The DeepSeek consumption loop of chat_stream: a chunk whose first
choice has a null reasoning_content stops the loop (before that chunk's
usage is stored); a chunk with a non-empty reasoning delta is re-emitted as
a content event with kind text_delta and accumulated; a chunk-level usage
report is stored, later reports overwriting earlier ones; a provider-level
Err emits one error event and abandons the whole task. -/
def dsPhase : List (Except ApiError StreamResponse) → DsPhaseResult
  | [] => { events := [], reasoning := "", usage := none, errored := false }
  | .error e :: _ =>
    { events := [.error e.toString 500], reasoning := "", usage := none
      errored := true }
  | .ok r :: rest =>
    if dsSentinel r then
      { events := [], reasoning := "", usage := none, errored := false }
    else
      let tail := dsPhase rest
      { events := dsEmittedFor r ++ tail.events
        reasoning := dsAccumulatedFor r ++ tail.reasoning
        usage := match tail.usage with
          | some u => some u
          | none => r.usage
        errored := tail.errored }

/-- Construction of the streaming usage event (src/handlers.rs,
chat_stream, MessageDelta arm): the Anthropic cost is computed against the
hard-coded default model identifier; the DeepSeek side uses the stored
usage when present and an all-zero record with a literal two-decimal
placeholder cost otherwise. -/
def mkUsageEvent (config : Config) (deepseek_usage : Option DSUsage)
    (u : AnUsage) : OutEvent :=
  let anthropic_usage := AnthropicUsage.from_anthropic u
  let anthropic_cost := calculate_anthropic_cost "claude-3-5-sonnet-20241022"
    anthropic_usage.input_tokens anthropic_usage.output_tokens
    anthropic_usage.cached_write_tokens anthropic_usage.cached_read_tokens
    config
  let dsPart : DeepSeekUsage × ℚ := match deepseek_usage with
    | some usage =>
      let cost := calculate_deepseek_cost usage.prompt_tokens
        usage.completion_tokens
        usage.completion_tokens_details.reasoning_tokens
        usage.prompt_tokens_details.cached_tokens config
      ({ input_tokens := usage.prompt_tokens
         output_tokens := usage.completion_tokens
         reasoning_tokens := usage.completion_tokens_details.reasoning_tokens
         cached_input_tokens := usage.prompt_tokens_details.cached_tokens
         total_tokens := usage.total_tokens
         total_cost := format_cost cost }, cost)
    | none =>
      ({ input_tokens := 0, output_tokens := 0, reasoning_tokens := 0
         cached_input_tokens := 0, total_tokens := 0
         total_cost := "$0.00" }, 0)
  .usage
    { total_cost := format_cost (dsPart.2 + anthropic_cost)
      deepseek_usage := dsPart.1
      anthropic_usage :=
        { input_tokens := anthropic_usage.input_tokens
          output_tokens := anthropic_usage.output_tokens
          cached_write_tokens := anthropic_usage.cached_write_tokens
          cached_read_tokens := anthropic_usage.cached_read_tokens
          total_tokens := anthropic_usage.total_tokens
          total_cost := format_cost anthropic_cost } }

/-- The events emitted for one successfully decoded Anthropic stream event
(src/handlers.rs, chat_stream, the Ok match arms): MessageStart is
forwarded only when it carries non-empty content, ContentBlockDelta is
forwarded verbatim, MessageDelta with a usage report emits the usage
event, all other events are ignored. -/
def anEventsFor (config : Config) (deepseek_usage : Option DSUsage) :
    AnStreamEvent → List OutEvent
  | .messageStart message =>
    if !message.content.isEmpty then
      [OutEvent.content (message.content.map ContentBlock.from_anthropic)]
    else []
  | .contentBlockDelta _ delta =>
    [OutEvent.content [{ content_type := delta.delta_type, text := delta.text }]]
  | .messageDelta _ (some u) => [mkUsageEvent config deepseek_usage u]
  | _ => []

/-- The Anthropic consumption loop of chat_stream: each successful event
contributes its anEventsFor output; after the stream ends the done event
is emitted; a provider-level Err emits one error event and abandons the
task without a done event. -/
def anPhase (config : Config) (deepseek_usage : Option DSUsage) :
    List (Except ApiError AnStreamEvent) → List OutEvent
  | [] => [.done]
  | .error e :: _ => [.error e.toString 500]
  | .ok ev :: rest =>
    anEventsFor config deepseek_usage ev ++ anPhase config deepseek_usage rest

/-- The full producer task of chat_stream: start event, opening thinking
tag, the DeepSeek phase (early abandon on Err), closing thinking tag, then
the Anthropic phase ending in done or error.  The request argument carries
the caller configuration; it shapes only the upstream calls, never the
emitted event sequence. -/
def streamEvents (config : Config) (_req : ApiRequest)
    (dsItems : List (Except ApiError StreamResponse))
    (anItems : List (Except ApiError AnStreamEvent)) : List OutEvent :=
  let ds := dsPhase dsItems
  let pre := [OutEvent.start,
    OutEvent.content [ContentBlock.text_ "<thinking>\n"]]
  if ds.errored then pre ++ ds.events
  else
    pre ++ ds.events ++ [OutEvent.content [ContentBlock.text_ "\n</thinking>"]] ++
      anPhase config ds.usage anItems

/-! ## Incremental frame decoding: src/clients/deepseek.rs and
anthropic.rs, chat_stream inner loops

Both clients keep a String buffer, append the lossily UTF-8-decoded bytes
of each network chunk, repeatedly cut the buffer at the first blank-line
boundary, hand each complete frame to a frame handler (prefix checks plus a
serde_json decode, modelled as an opaque decode function), and keep the
unconsumed tail.  Text is modelled as lists of characters. -/

/-- Split a character sequence at the first double-newline, returning the
text before it and the text after it, mirroring the data[start..].find
search of the Rust loops. -/
def breakSep : List Char → Option (List Char × List Char)
  | [] => none
  | [_] => none
  | c1 :: c2 :: rest =>
    if c1 = '\n' ∧ c2 = '\n' then some ([], rest)
    else
      match breakSep (c2 :: rest) with
      | some (front, back) => some (c1 :: front, back)
      | none => none

theorem breakSep_length {s front back : List Char}
    (h : breakSep s = some (front, back)) :
    s.length = front.length + 2 + back.length := by
  induction s generalizing front back with
  | nil => simp [breakSep] at h
  | cons c1 tail ih =>
    cases tail with
    | nil => simp [breakSep] at h
    | cons c2 rest =>
      rw [breakSep] at h
      by_cases hc : c1 = '\n' ∧ c2 = '\n'
      · rw [if_pos hc] at h
        cases h
        simp
        omega
      · rw [if_neg hc] at h
        cases hrec : breakSep (c2 :: rest) with
        | none => rw [hrec] at h; cases h
        | some p =>
          obtain ⟨f2, b2⟩ := p
          rw [hrec] at h
          cases h
          have hlen := ih hrec
          simp at hlen ⊢
          omega

/-- Fuelled core of the frame splitter.  Each extracted frame consumes at
least two characters, so fuel equal to the buffer length always suffices;
the fuel only serves to keep the definition structurally recursive and
hence evaluable inside the kernel. -/
def splitFramesAux : Nat → List Char → List (List Char) × List Char
  | 0, s => ([], s)
  | fuel + 1, s =>
    match breakSep s with
    | none => ([], s)
    | some (front, back) =>
      let rest := splitFramesAux fuel back
      (front :: rest.1, rest.2)

/-- The complete frames in a buffer together with the unconsumed tail:
repeated application of breakSep, mirroring the inner while loop of both
chat_stream implementations. -/
def splitFrames (s : List Char) : List (List Char) × List Char :=
  splitFramesAux s.length s

theorem splitFramesAux_adequate {fuel : Nat} {s : List Char}
    (h : s.length ≤ fuel) : splitFramesAux fuel s = splitFrames s := by
  induction fuel using Nat.strong_induction_on generalizing s with
  | _ fuel ih =>
    cases fuel with
    | zero =>
      have : s = [] := List.eq_nil_of_length_eq_zero (Nat.le_zero.mp h)
      subst this
      rfl
    | succ fuel =>
      rw [splitFramesAux]
      cases hb : breakSep s with
      | none =>
        unfold splitFrames
        cases hl : s.length with
        | zero =>
          have : s = [] := List.eq_nil_of_length_eq_zero hl
          subst this
          rfl
        | succ n => rw [splitFramesAux, hb]
      | some p =>
        obtain ⟨front, back⟩ := p
        have hlen := breakSep_length hb
        have hback : back.length ≤ fuel := by omega
        have hslen : s.length = (s.length - 1) + 1 := by omega
        unfold splitFrames
        rw [hslen, splitFramesAux, hb]
        have h1 := ih fuel (Nat.lt_succ_self fuel) hback
        have h2 := ih (s.length - 1) (by omega) (show back.length ≤ s.length - 1 by omega)
        simp only [h1, h2]

/-- Single unfolding of splitFrames when the buffer holds no complete
frame. -/
theorem splitFrames_of_none {s : List Char} (h : breakSep s = none) :
    splitFrames s = ([], s) := by
  unfold splitFrames
  cases hl : s.length with
  | zero => rfl
  | succ n => rw [splitFramesAux, h]

/-- Single unfolding of splitFrames when the buffer holds a complete
frame. -/
theorem splitFrames_of_some {s front back : List Char}
    (h : breakSep s = some (front, back)) :
    splitFrames s =
      (front :: (splitFrames back).1, (splitFrames back).2) := by
  have hlen := breakSep_length h
  have hslen : s.length = (s.length - 1) + 1 := by omega
  unfold splitFrames
  rw [hslen, splitFramesAux, h]
  simp only [splitFramesAux_adequate (show back.length ≤ s.length - 1 by omega)]
  rfl

/-- Whitespace per Rust char::is_whitespace (the Unicode White_Space
property). -/
def isRustWhitespace (c : Char) : Bool :=
  c = ' ' || c = '\t' || c = '\n' || c = '\r' ||
    c.toNat = 0x0B || c.toNat = 0x0C || c.toNat = 0x85 || c.toNat = 0xA0 ||
    c.toNat = 0x1680 || (0x2000 ≤ c.toNat && c.toNat ≤ 0x200A) ||
    c.toNat = 0x2028 || c.toNat = 0x2029 || c.toNat = 0x202F ||
    c.toNat = 0x205F || c.toNat = 0x3000

/-- Rust str::trim on a character list. -/
def trimChars (s : List Char) : List Char :=
  ((s.dropWhile isRustWhitespace).reverse.dropWhile isRustWhitespace).reverse

/-- DeepSeek frame handling (src/clients/deepseek.rs, chat_stream): trim
the frame, require the data-line marker, and decode the JSON payload; any
failure silently skips the frame. -/
def dsFrameDecode {E : Type} (decode : List Char → Option E)
    (frame : List Char) : Option E :=
  let line := trimChars frame
  if ("data: ".toList).isPrefixOf line then
    decode (line.drop 6)
  else none

/-- Rust str::lines on a character list: split on newline, drop one
trailing carriage return per line, and ignore a trailing empty segment. -/
def rustLines (s : List Char) : List (List Char) :=
  if s.isEmpty then []
  else
    let parts := s.splitOn '\n'
    let parts := match parts.getLast? with
      | some [] => parts.dropLast
      | _ => parts
    parts.map (fun line => match line.getLast? with
      | some '\r' => line.dropLast
      | _ => line)

/-- Anthropic frame handling (src/clients/anthropic.rs, chat_stream):
require the event-type marker line, take the second line, require the
data-line marker, and decode the JSON payload; any failure silently skips
the frame. -/
def anFrameDecode {E : Type} (decode : List Char → Option E)
    (frame : List Char) : Option E :=
  if ("event: ".toList).isPrefixOf frame then
    match (rustLines frame).get? 1 with
    | some data_line =>
      if ("data: ".toList).isPrefixOf data_line then
        decode (data_line.drop 6)
      else none
    | none => none
  else none

/-- The buffered chunk loop shared by both clients: append each chunk to
the carried buffer, decode every complete frame, keep the tail. -/
def processBuffered {E : Type} (handle : List Char → Option E) :
    List Char → List (List Char) → List E
  | _, [] => []
  | buf, chunk :: rest =>
    let split := splitFrames (buf ++ chunk)
    split.1.filterMap handle ++ processBuffered handle split.2 rest

/-- Frame decoding of a whole chunked text stream, starting from an empty
buffer. -/
def processChunks {E : Type} (handle : List Char → Option E)
    (chunks : List (List Char)) : List E :=
  processBuffered handle [] chunks

/-- The Unicode replacement character. -/
def replChar : Char := Char.ofNat 0xFFFD

/-- Is a byte a UTF-8 continuation byte. -/
def isCont (b : Nat) : Bool := 0x80 ≤ b && b ≤ 0xBF

/-- Admissible second byte of a three-byte UTF-8 sequence. -/
def sndByteOk3 (b c : Nat) : Bool :=
  if b = 0xE0 then 0xA0 ≤ c && c ≤ 0xBF
  else if b = 0xED then 0x80 ≤ c && c ≤ 0x9F
  else isCont c

/-- Admissible second byte of a four-byte UTF-8 sequence. -/
def sndByteOk4 (b c : Nat) : Bool :=
  if b = 0xF0 then 0x90 ≤ c && c ≤ 0xBF
  else if b = 0xF4 then 0x80 ≤ c && c ≤ 0x8F
  else isCont c

/-- Fuelled core of the lossy UTF-8 decoder.  Every step consumes at least
one byte, so fuel equal to the byte count always suffices; the fuel only
keeps the definition structurally recursive and hence evaluable inside the
kernel. -/
def utf8LossyAux : Nat → List Nat → List Char
  | 0, _ => []
  | fuel + 1, bytes =>
    match bytes with
    | [] => []
    | b :: rest =>
      if b < 0x80 then Char.ofNat b :: utf8LossyAux fuel rest
      else if 0xC2 ≤ b && b ≤ 0xDF then
        match rest with
        | [] => [replChar]
        | c1 :: rest2 =>
          if isCont c1 then
            Char.ofNat ((b - 0xC0) * 64 + (c1 - 0x80)) :: utf8LossyAux fuel rest2
          else replChar :: utf8LossyAux fuel rest
      else if 0xE0 ≤ b && b ≤ 0xEF then
        match rest with
        | [] => [replChar]
        | c1 :: rest2 =>
          if sndByteOk3 b c1 then
            match rest2 with
            | [] => [replChar]
            | c2 :: rest3 =>
              if isCont c2 then
                Char.ofNat ((b - 0xE0) * 4096 + (c1 - 0x80) * 64 + (c2 - 0x80)) ::
                  utf8LossyAux fuel rest3
              else replChar :: utf8LossyAux fuel rest2
          else replChar :: utf8LossyAux fuel rest
      else if 0xF0 ≤ b && b ≤ 0xF4 then
        match rest with
        | [] => [replChar]
        | c1 :: rest2 =>
          if sndByteOk4 b c1 then
            match rest2 with
            | [] => [replChar]
            | c2 :: rest3 =>
              if isCont c2 then
                match rest3 with
                | [] => [replChar]
                | c3 :: rest4 =>
                  if isCont c3 then
                    Char.ofNat ((b - 0xF0) * 262144 + (c1 - 0x80) * 4096 +
                        (c2 - 0x80) * 64 + (c3 - 0x80)) :: utf8LossyAux fuel rest4
                  else replChar :: utf8LossyAux fuel rest3
              else replChar :: utf8LossyAux fuel rest2
          else replChar :: utf8LossyAux fuel rest
      else replChar :: utf8LossyAux fuel rest

/-- Rust String::from_utf8_lossy on a byte list: well-formed scalar
sequences decode to their characters, each maximal invalid subpart is
replaced by one replacement character, and an incomplete sequence at the
end of the input becomes a single replacement character. -/
def utf8Lossy (bytes : List Nat) : List Char :=
  utf8LossyAux bytes.length bytes

/-- Frame decoding of a chunked byte stream: each network chunk is lossily
UTF-8-decoded in isolation before entering the shared buffered loop,
exactly as data.push_str(&String::from_utf8_lossy(&chunk)) does. -/
def processByteChunks {E : Type} (handle : List Char → Option E)
    (chunks : List (List Nat)) : List E :=
  processChunks handle (chunks.map utf8Lossy)

/-! ## Request construction: src/clients/deepseek.rs and anthropic.rs,
build_request

Both clients build a JSON object with the orchestrator-supplied fields,
merge the caller's body overrides after removing the protected keys, and
parse the merged object back into the typed request struct.  The parse
consumes the protected keys into struct fields and collects the rest into
the flattened additional-params value; on a parse failure the Rust code
falls back to a struct built directly from the arguments.  The parse of the
merged object is modelled field-for-field; the theorems show it always
succeeds, so the fallback stays dead. -/

/-- Serde rendering of a message role (src/models/request.rs, the
lowercase serde rename on enum Role). -/
def Role.toJsonStr : Role → String
  | .system => "system"
  | .user => "user"
  | .assistant => "assistant"

/-- Serde parsing of a message role. -/
def Role.ofJsonStr : String → Option Role
  | "system" => some .system
  | "user" => some .user
  | "assistant" => some .assistant
  | _ => none

/-- Serde serialization of one message. -/
def Message.toJson (m : Message) : Json :=
  .obj [("role", .str m.role.toJsonStr), ("content", .str m.content)]

/-- Serde deserialization of one message. -/
def Message.ofJson (j : Json) : Option Message :=
  match j.get "role", j.get "content" with
  | some (.str r), some (.str c) =>
    (Role.ofJsonStr r).map (fun role => Message.mk role c)
  | _, _ => none

/-- Serde serialization of a message list. -/
def messagesToJson (msgs : List Message) : Json :=
  .arr (msgs.map Message.toJson)

/-- Serde deserialization of a message list. -/
def messagesOfJson : Json → Option (List Message)
  | .arr items => items.mapM Message.ofJson
  | _ => none

/-- The typed DeepSeek request (src/clients/deepseek.rs, struct
DeepSeekRequest): messages, stream, and the flattened free-form remainder. -/
structure DeepSeekRequest where
  messages : List Message
  stream : Bool
  additional_params : Json

/-- Parse of the merged request JSON into DeepSeekRequest, mirroring the
final serde_json::from_value step: messages and stream are consumed into
struct fields and all other keys flatten into additional_params. -/
def DeepSeekRequest.ofJson (j : Json) : Option DeepSeekRequest :=
  match j with
  | .obj fields =>
    match j.get "messages", j.get "stream" with
    | some msgsJson, some (.bool stream) =>
      (messagesOfJson msgsJson).map (fun msgs =>
        { messages := msgs, stream := stream
          additional_params :=
            .obj (fields.filter (fun p => p.1 ≠ "messages" ∧ p.1 ≠ "stream")) })
    | _, _ => none
  | _ => none

/-- The default DeepSeek model identifier (src/clients/deepseek.rs,
DEFAULT_MODEL). -/
def deepseekDefaultModel : String := "deepseek-reasoner"

/-- The merged request JSON built by DeepSeekClient::build_request: the
base object carries messages, stream, model/max_tokens/temperature
defaults (read from the override map when present) and the response_format
block; the override map minus the protected stream and messages keys is
then merged key by key. -/
def deepseekRequestJson (messages : List Message) (stream : Bool)
    (config : ApiConfig) : Json :=
  let base : List (String × Json) :=
    [("messages", messagesToJson messages),
     ("stream", .bool stream),
     ("model", (config.body.get "model").getD (.str deepseekDefaultModel)),
     ("max_tokens", (config.body.get "max_tokens").getD (.num 8192)),
     ("temperature", (config.body.get "temperature").getD (.num 1)),
     ("response_format", .obj [("type", .str "text")])]
  match config.body with
  | .obj overrides =>
    .obj ((overrides.filter (fun p => p.1 ≠ "stream" ∧ p.1 ≠ "messages")).foldl
      (fun acc p => Json.objInsert acc p.1 p.2) base)
  | _ => .obj base

/-- DeepSeekClient::build_request (src/clients/deepseek.rs): parse the
merged JSON, falling back to a struct carrying the raw override map when
the parse fails. -/
def DeepSeekClient.build_request (messages : List Message) (stream : Bool)
    (config : ApiConfig) : DeepSeekRequest :=
  (DeepSeekRequest.ofJson (deepseekRequestJson messages stream config)).getD
    { messages := messages, stream := stream, additional_params := config.body }

/-- Anthropic wire message (src/clients/anthropic.rs, struct
AnthropicMessage). -/
structure AnthropicMessage where
  role : String
  content : String
deriving DecidableEq

/-- The typed Anthropic request (src/clients/anthropic.rs, struct
AnthropicRequest). -/
structure AnthropicRequest where
  messages : List AnthropicMessage
  stream : Bool
  system : Option String
  additional_params : Json

/-- The role-filtered, role-renamed message list built at the top of
AnthropicClient::build_request: system-role entries are dropped and the
remaining roles are rendered as wire strings.  The system arm of the Rust
role match is unreachable after the filter. -/
def anthropicFilteredMessages (messages : List Message) : List AnthropicMessage :=
  (messages.filter (fun m => !(m.role = Role.system))).map (fun m =>
    { role := match m.role with
        | .user => "user"
        | .assistant => "assistant"
        | .system => "system"
      content := m.content })

/-- Serde serialization of the filtered message list. -/
def anthropicMessagesToJson (msgs : List AnthropicMessage) : Json :=
  .arr (msgs.map (fun m => .obj [("role", .str m.role), ("content", .str m.content)]))

/-- Serde deserialization of an Anthropic wire message. -/
def AnthropicMessage.ofJson (j : Json) : Option AnthropicMessage :=
  match j.get "role", j.get "content" with
  | some (.str r), some (.str c) => some { role := r, content := c }
  | _, _ => none

/-- Parse of the merged request JSON into AnthropicRequest, mirroring the
final serde_json::from_value step. -/
def AnthropicRequest.ofJson (j : Json) : Option AnthropicRequest :=
  match j with
  | .obj fields =>
    match j.get "messages", j.get "stream" with
    | some (.arr items), some (.bool stream) =>
      match items.mapM AnthropicMessage.ofJson with
      | some msgs =>
        match j.get "system" with
        | some (.str s) =>
          some { messages := msgs, stream := stream, system := some s
                 additional_params := .obj (fields.filter (fun p =>
                   p.1 ≠ "messages" ∧ p.1 ≠ "stream" ∧ p.1 ≠ "system")) }
        | none =>
          some { messages := msgs, stream := stream, system := none
                 additional_params := .obj (fields.filter (fun p =>
                   p.1 ≠ "messages" ∧ p.1 ≠ "stream" ∧ p.1 ≠ "system")) }
        | some _ => none
      | none => none
    | _, _ => none
  | _ => none

/-- The default Anthropic model identifier (src/clients/anthropic.rs,
DEFAULT_MODEL). -/
def anthropicDefaultModel : String := "claude-3-5-sonnet-20241022"

/-- The merged request JSON built by AnthropicClient::build_request: the
base object carries the filtered messages, stream, the model value from
the override map or the default, and a max_tokens default that shrinks for
opus model identifiers; the system field is inserted when present; the
override map minus the protected stream, messages and system keys is then
merged key by key. -/
def anthropicRequestJson (messages : List Message) (system : Option String)
    (stream : Bool) (config : ApiConfig) : Json :=
  let filtered := anthropicFilteredMessages messages
  let model_value := (config.body.get "model").getD (.str anthropicDefaultModel)
  let default_max_tokens : ℚ := match model_value with
    | .str model_str => if strContains model_str "claude-3-opus" then 4096 else 8192
    | _ => 8192
  let base : List (String × Json) :=
    [("messages", anthropicMessagesToJson filtered),
     ("stream", .bool stream),
     ("model", model_value),
     ("max_tokens", (config.body.get "max_tokens").getD (.num default_max_tokens))]
  let withSystem := match system with
    | some sys => Json.objInsert base "system" (.str sys)
    | none => base
  match config.body with
  | .obj overrides =>
    .obj ((overrides.filter (fun p =>
        p.1 ≠ "stream" ∧ p.1 ≠ "messages" ∧ p.1 ≠ "system")).foldl
      (fun acc p => Json.objInsert acc p.1 p.2) withSystem)
  | _ => .obj withSystem

/-- AnthropicClient::build_request (src/clients/anthropic.rs): parse the
merged JSON, falling back to a struct carrying the raw override map when
the parse fails. -/
def AnthropicClient.build_request (messages : List Message)
    (system : Option String) (stream : Bool) (config : ApiConfig) :
    AnthropicRequest :=
  (AnthropicRequest.ofJson (anthropicRequestJson messages system stream config)).getD
    { messages := anthropicFilteredMessages messages, stream := stream
      system := system, additional_params := config.body }

/-! ## Shared fixtures for witnesses and counterexamples -/

/-- An empty provider configuration. -/
def emptyApiConfig : ApiConfig := { headers := [], body := Json.null }

/-- A minimal valid request fixture. -/
def reqFixture : ApiRequest :=
  { stream := true, verbose := false, system := none
    messages := [Message.mk Role.user "hi"]
    deepseek_config := emptyApiConfig, anthropic_config := emptyApiConfig }

/-! ## Claim theorems -/

/-- C1: on a usage report with cachedTokens greater than inputTokens the
code does not clamp the cache-miss component to zero: the u32 subtraction
wraps (release build; a debug build aborts), so the computed cost is the
astronomically large wrapped value instead of the clamped value the spec
requires.  Evaluated at input_tokens = 0, cached_tokens = 1 with the
default pricing table. -/
theorem c1_no_clamp_at_failing_input :
    calculate_deepseek_cost 0 0 0 1 Config.default = 236223201239 / 100000000 ∧
    reasoningCostSpec 0 0 1 Config.default = 7 / 50000000 ∧
    calculate_deepseek_cost 0 0 0 1 Config.default ≠
      reasoningCostSpec 0 0 1 Config.default := by
  refine ⟨?_, ?_, ?_⟩ <;>
    norm_num [calculate_deepseek_cost, reasoningCostSpec, u32Sub, Config.default]

/-- C3 counterexample: a request whose only system message sits in the
message list.  A system message is present, yet get_messages_with_system
drops it entirely: the returned list is just the user message, so its
first element is not the system message the claim promises. -/
theorem c3_counterexample :
    (ApiRequest.mk false false none
        [Message.mk Role.system "s", Message.mk Role.user "u"]
        emptyApiConfig emptyApiConfig).messages.any
      (fun m => m.role == Role.system) = true ∧
    (ApiRequest.mk false false none
        [Message.mk Role.system "s", Message.mk Role.user "u"]
        emptyApiConfig emptyApiConfig).get_messages_with_system
      = [Message.mk Role.user "u"] := by
  constructor
  · decide
  · decide

/-- C3 amended: the output's system-role entries are exactly the message
synthesized from the root system field — every in-list system-role entry
is excluded (hence no duplicates) — and the first output element is the
root system message when that field is set, and otherwise the first
non-system message of the original list (an in-list-only system message is
dropped, not placed first). -/
theorem c3_system_message_placement (req : ApiRequest) :
    req.get_messages_with_system.filter (fun m => m.role == Role.system)
      = (match req.system with
         | some s => [Message.mk Role.system s]
         | none => []) ∧
    req.get_messages_with_system.head?
      = (match req.system with
         | some s => some (Message.mk Role.system s)
         | none =>
           (req.messages.filter (fun m => !(m.role = Role.system))).head?) := by
  have hfilter :
      (req.messages.filter (fun m => !(m.role = Role.system))).filter
        (fun m => m.role == Role.system) = [] := by
    rw [List.filter_filter]
    rw [List.filter_eq_nil_iff]
    intro a _
    by_cases h : a.role = Role.system <;> simp [h]
  constructor
  · unfold ApiRequest.get_messages_with_system
    cases req.system with
    | none => simp [hfilter]
    | some s =>
      rw [List.filter_append]
      simp [hfilter]
  · unfold ApiRequest.get_messages_with_system
    cases req.system with
    | none => simp
    | some s => simp

/-- C8: a request carrying both a root system field and an in-list
system-role message fails validation, and the handler rejects it with the
InvalidSystemPrompt error no matter what either upstream oracle would
answer (no upstream call is made); a request with at most one system
source passes validation. -/
theorem c8_single_system_source (config : Config) (req : ApiRequest)
    (dsCall : List Message → ApiConfig → Except ApiError DeepSeekResponse)
    (anCall : List Message → Option String → ApiConfig →
      Except ApiError AnthropicResponse) :
    (req.system.isSome = true →
      req.messages.any (fun m => m.role == Role.system) = true →
      req.validate_system_prompt = false ∧
        chat config req dsCall anCall = .error .invalidSystemPrompt) ∧
    ((if req.system.isSome then 1 else 0) +
        req.messages.countP (fun m => m.role == Role.system) ≤ 1 →
      req.validate_system_prompt = true) := by
  constructor
  · intro hs hm
    have hv : req.validate_system_prompt = false := by
      unfold ApiRequest.validate_system_prompt
      simp only [Bool.not_eq_true']
      rw [hs]
      simpa using hm
    refine ⟨hv, ?_⟩
    unfold chat
    rw [hv]
    rfl
  · intro hcount
    unfold ApiRequest.validate_system_prompt
    simp only [Bool.not_eq_true', Bool.and_eq_false_iff]
    by_cases hs : req.system.isSome
    · right
      rw [hs] at hcount
      simp only [if_true] at hcount
      have : req.messages.countP (fun m => m.role == Role.system) = 0 := by omega
      rw [List.countP_eq_zero] at this
      rw [List.any_eq_false]
      intro m hm
      simpa using this m hm
    · left
      simpa using hs

/-- C8 witness: the dual-source request is rejected with the validation
error and the single-source request passes. -/
theorem c8_single_system_source_witness :
    ((ApiRequest.mk false false (some "root")
        [Message.mk Role.system "s"] emptyApiConfig
        emptyApiConfig).validate_system_prompt = false ∧
      chat Config.default
        (ApiRequest.mk false false (some "root")
          [Message.mk Role.system "s"] emptyApiConfig emptyApiConfig)
        (fun _ _ => .error (.other "unused"))
        (fun _ _ _ => .error (.other "unused")) =
        .error .invalidSystemPrompt) ∧
    (ApiRequest.mk false false (some "root")
        [Message.mk Role.user "u"] emptyApiConfig
        emptyApiConfig).validate_system_prompt = true := by
  refine ⟨(c8_single_system_source Config.default
      (ApiRequest.mk false false (some "root")
        [Message.mk Role.system "s"] emptyApiConfig emptyApiConfig)
      (fun _ _ => .error (.other "unused"))
      (fun _ _ _ => .error (.other "unused"))).1 (by decide) (by decide),
    (c8_single_system_source Config.default
      (ApiRequest.mk false false (some "root")
        [Message.mk Role.user "u"] emptyApiConfig emptyApiConfig)
      (fun _ _ => .error (.other "unused"))
      (fun _ _ _ => .error (.other "unused"))).2 (by decide)⟩

/-- C4: when the DeepSeek response carries no reasoning content in its
first choice, the non-streaming handler fails with the DeepSeek upstream
error of kind missing_content, and the result is the same for every
Anthropic oracle: the response provider is never invoked. -/
theorem c4_missing_reasoning_aborts (config : Config) (req : ApiRequest)
    (dsr : DeepSeekResponse)
    (anCall : List Message → Option String → ApiConfig →
      Except ApiError AnthropicResponse)
    (hv : req.validate_system_prompt = true)
    (hr : dsr.choices.head?.bind (fun c => c.message.reasoning_content) = none) :
    chat config req (fun _ _ => .ok dsr) anCall =
      .error (.deepSeekError "No reasoning content in response"
        "missing_content" none none) := by
  unfold chat
  rw [hv]
  simp [hr]

/-- C4 witness: a concrete DeepSeek response whose first choice has no
reasoning content makes the handler fail with the missing_content error. -/
theorem c4_missing_reasoning_aborts_witness :
    chat Config.default reqFixture
      (fun _ _ => .ok
        { id := "i", object := "o", created := 0, model := "m"
          choices := [{ index := 0
                        message := { role := "assistant"
                                     content := some "hello"
                                     reasoning_content := none }
                        finish_reason := none }]
          usage := { prompt_tokens := 1, completion_tokens := 1
                     total_tokens := 2
                     prompt_tokens_details := { cached_tokens := 0 }
                     completion_tokens_details := { reasoning_tokens := 0 }
                     prompt_cache_hit_tokens := 0
                     prompt_cache_miss_tokens := 1 }
          system_fingerprint := "f" })
      (fun _ _ _ => .error (.other "unused")) =
      .error (.deepSeekError "No reasoning content in response"
        "missing_content" none none) :=
  c4_missing_reasoning_aborts Config.default reqFixture _ _ (by decide) (by decide)

/-! ### Lemmas for C2: object merging never touches protected keys -/

theorem find?_map_replace {k' k : String} {v : Json}
    (h : k' ≠ k) (fields : List (String × Json)) :
    (fields.map (fun p => if p.1 = k' then (k', v) else p)).find?
        (fun p => p.1 = k) =
      fields.find? (fun p => p.1 = k) := by
  induction fields with
  | nil => rfl
  | cons q rest ih =>
    rw [List.map_cons]
    by_cases hq : q.1 = k'
    · have hqk : ¬(q.1 = k) := by rw [hq]; exact h
      rw [if_pos hq]
      rw [List.find?_cons_of_neg _ (by simpa using h),
        List.find?_cons_of_neg _ (by simpa using hqk), ih]
    · rw [if_neg hq]
      by_cases hqk : q.1 = k
      · rw [List.find?_cons_of_pos _ (by simpa using hqk),
          List.find?_cons_of_pos _ (by simpa using hqk)]
      · rw [List.find?_cons_of_neg _ (by simpa using hqk),
          List.find?_cons_of_neg _ (by simpa using hqk), ih]

theorem find?_append_missing {k' k : String} {v : Json}
    (h : k' ≠ k) (fields : List (String × Json)) :
    (fields ++ [(k', v)]).find? (fun p => p.1 = k) =
      fields.find? (fun p => p.1 = k) := by
  induction fields with
  | nil => simp [List.find?, h]
  | cons q rest ih =>
    by_cases hqk : q.1 = k
    · simp [List.find?, hqk]
    · simp [List.find?, hqk, ih]

theorem get_objInsert_ne {k' k : String} {v : Json}
    (h : k' ≠ k) (fields : List (String × Json)) :
    Json.get (.obj (Json.objInsert fields k' v)) k =
      Json.get (.obj fields) k := by
  unfold Json.objInsert
  by_cases hany : fields.any (fun p => p.1 = k')
  · simp only [hany, if_true, Json.get]
    rw [find?_map_replace h]
  · simp only [hany, if_false, Json.get, Bool.false_eq_true]
    rw [find?_append_missing h]

theorem get_foldl_objInsert {k : String}
    (entries : List (String × Json)) (base : List (String × Json))
    (h : ∀ p ∈ entries, p.1 ≠ k) :
    Json.get (.obj (entries.foldl
        (fun acc p => Json.objInsert acc p.1 p.2) base)) k =
      Json.get (.obj base) k := by
  induction entries generalizing base with
  | nil => rfl
  | cons p rest ih =>
    rw [List.foldl_cons]
    rw [ih (Json.objInsert base p.1 p.2)
      (fun q hq => h q (List.mem_cons_of_mem p hq))]
    exact get_objInsert_ne (h p (List.mem_cons_self p rest)) base

theorem Role.ofJsonStr_toJsonStr (r : Role) :
    Role.ofJsonStr r.toJsonStr = some r := by
  cases r <;> rfl

theorem Message.ofJson_toJson (m : Message) :
    Message.ofJson m.toJson = some m := by
  simp [Message.ofJson, Message.toJson, Json.get, List.find?,
    Role.ofJsonStr_toJsonStr]

theorem messagesOfJson_toJson (msgs : List Message) :
    messagesOfJson (messagesToJson msgs) = some msgs := by
  unfold messagesOfJson messagesToJson
  induction msgs with
  | nil => rfl
  | cons m rest ih =>
    simp only [List.map_cons, List.mapM_cons, Message.ofJson_toJson]
    simp only [List.map] at ih
    rw [ih]
    rfl

theorem anthropicMessagesOfJson_toJson (msgs : List AnthropicMessage) :
    (msgs.map (fun m =>
        Json.obj [("role", .str m.role), ("content", .str m.content)])).mapM
      AnthropicMessage.ofJson = some msgs := by
  induction msgs with
  | nil => rfl
  | cons m rest ih =>
    simp only [List.map_cons, List.mapM_cons, ih]
    simp [AnthropicMessage.ofJson, Json.get, List.find?]

theorem mem_filter_ne_fst {pred : String × Json → Bool}
    {k : String} (overrides : List (String × Json))
    (hpred : ∀ p, pred p = true → p.1 ≠ k) :
    ∀ p ∈ overrides.filter pred, p.1 ≠ k := by
  intro p hp
  exact hpred p (List.of_mem_filter hp)

theorem deepseekRequestJson_get_stream (messages : List Message)
    (stream : Bool) (config : ApiConfig) :
    (deepseekRequestJson messages stream config).get "stream" =
      some (.bool stream) := by
  unfold deepseekRequestJson
  cases config.body with
  | obj overrides =>
    simp only
    rw [get_foldl_objInsert _ _ (mem_filter_ne_fst overrides (by
      intro p hp
      simp at hp
      exact hp.1))]
    simp [Json.get, List.find?]
  | null => simp [Json.get, List.find?]
  | bool b => simp [Json.get, List.find?]
  | num q => simp [Json.get, List.find?]
  | str s => simp [Json.get, List.find?]
  | arr l => simp [Json.get, List.find?]

theorem deepseekRequestJson_get_messages (messages : List Message)
    (stream : Bool) (config : ApiConfig) :
    (deepseekRequestJson messages stream config).get "messages" =
      some (messagesToJson messages) := by
  unfold deepseekRequestJson
  cases config.body with
  | obj overrides =>
    simp only
    rw [get_foldl_objInsert _ _ (mem_filter_ne_fst overrides (by
      intro p hp
      simp at hp
      exact hp.2))]
    simp [Json.get, List.find?]
  | null => simp [Json.get, List.find?]
  | bool b => simp [Json.get, List.find?]
  | num q => simp [Json.get, List.find?]
  | str s => simp [Json.get, List.find?]
  | arr l => simp [Json.get, List.find?]

theorem find?_append_of_none {p : String × Json → Bool}
    {fields l : List (String × Json)} (h : fields.find? p = none) :
    (fields ++ l).find? p = l.find? p := by
  induction fields with
  | nil => rfl
  | cons q rest ih =>
    rw [List.find?_cons] at h
    rcases hq : p q with _ | _
    · rw [hq] at h
      rw [List.cons_append, List.find?_cons, hq]
      exact ih h
    · rw [hq] at h
      cases h

theorem get_objInsert_self (fields : List (String × Json)) (k : String)
    (v : Json) :
    Json.get (.obj (Json.objInsert fields k v)) k = some v := by
  unfold Json.objInsert
  by_cases hany : fields.any (fun p => p.1 = k)
  · simp only [hany, if_true, Json.get]
    induction fields with
    | nil => simp at hany
    | cons q rest ih =>
      by_cases hq : q.1 = k
      · rw [List.map_cons, if_pos hq]
        rw [List.find?_cons_of_pos _ (by simp)]
        rfl
      · have hrest : rest.any (fun p => p.1 = k) = true := by
          rw [List.any_cons] at hany
          simpa [hq] using hany
        rw [List.map_cons, if_neg hq]
        rw [List.find?_cons_of_neg _ (by simpa using hq)]
        exact ih hrest
  · simp only [hany, if_false, Json.get, Bool.false_eq_true]
    have hnone : fields.find? (fun p => p.1 = k) = none := by
      rw [List.find?_eq_none]
      intro q hq hcontra
      exact hany (List.any_eq_true.mpr ⟨q, hq, hcontra⟩)
    rw [find?_append_of_none hnone]
    simp [List.find?]

theorem anthropicRequestJson_get_stream (messages : List Message)
    (system : Option String) (stream : Bool) (config : ApiConfig) :
    (anthropicRequestJson messages system stream config).get "stream" =
      some (.bool stream) := by
  unfold anthropicRequestJson
  have hsys : ∀ base : List (String × Json),
      Json.get (.obj base) "stream" = some (.bool stream) →
      Json.get (.obj (match system with
        | some sys => Json.objInsert base "system" (.str sys)
        | none => base)) "stream" = some (.bool stream) := by
    intro base hbase
    cases system with
    | none => exact hbase
    | some sys => rw [get_objInsert_ne (by decide) base]; exact hbase
  cases config.body with
  | obj overrides =>
    simp only
    rw [get_foldl_objInsert _ _ (mem_filter_ne_fst overrides (by
      intro p hp
      simp at hp
      exact hp.1))]
    exact hsys _ (by simp [Json.get, List.find?])
  | null => exact hsys _ (by simp [Json.get, List.find?])
  | bool b => exact hsys _ (by simp [Json.get, List.find?])
  | num q => exact hsys _ (by simp [Json.get, List.find?])
  | str s => exact hsys _ (by simp [Json.get, List.find?])
  | arr l => exact hsys _ (by simp [Json.get, List.find?])

theorem anthropicRequestJson_get_messages (messages : List Message)
    (system : Option String) (stream : Bool) (config : ApiConfig) :
    (anthropicRequestJson messages system stream config).get "messages" =
      some (anthropicMessagesToJson (anthropicFilteredMessages messages)) := by
  unfold anthropicRequestJson
  have hsys : ∀ base : List (String × Json),
      Json.get (.obj base) "messages" =
        some (anthropicMessagesToJson (anthropicFilteredMessages messages)) →
      Json.get (.obj (match system with
        | some sys => Json.objInsert base "system" (.str sys)
        | none => base)) "messages" =
        some (anthropicMessagesToJson (anthropicFilteredMessages messages)) := by
    intro base hbase
    cases system with
    | none => exact hbase
    | some sys => rw [get_objInsert_ne (by decide) base]; exact hbase
  cases config.body with
  | obj overrides =>
    simp only
    rw [get_foldl_objInsert _ _ (mem_filter_ne_fst overrides (by
      intro p hp
      simp at hp
      exact hp.2.1))]
    exact hsys _ (by simp [Json.get, List.find?])
  | null => exact hsys _ (by simp [Json.get, List.find?])
  | bool b => exact hsys _ (by simp [Json.get, List.find?])
  | num q => exact hsys _ (by simp [Json.get, List.find?])
  | str s => exact hsys _ (by simp [Json.get, List.find?])
  | arr l => exact hsys _ (by simp [Json.get, List.find?])

theorem anthropicRequestJson_get_system (messages : List Message)
    (system : Option String) (stream : Bool) (config : ApiConfig) :
    (anthropicRequestJson messages system stream config).get "system" =
      system.map Json.str := by
  unfold anthropicRequestJson
  have hsys : ∀ base : List (String × Json),
      Json.get (.obj base) "system" = none →
      Json.get (.obj (match system with
        | some sys => Json.objInsert base "system" (.str sys)
        | none => base)) "system" = system.map Json.str := by
    intro base hbase
    cases system with
    | none => exact hbase
    | some sys => exact get_objInsert_self base "system" (.str sys)
  cases config.body with
  | obj overrides =>
    simp only
    rw [get_foldl_objInsert _ _ (mem_filter_ne_fst overrides (by
      intro p hp
      simp at hp
      exact hp.2.2))]
    exact hsys _ (by simp [Json.get, List.find?])
  | null => exact hsys _ (by simp [Json.get, List.find?])
  | bool b => exact hsys _ (by simp [Json.get, List.find?])
  | num q => exact hsys _ (by simp [Json.get, List.find?])
  | str s => exact hsys _ (by simp [Json.get, List.find?])
  | arr l => exact hsys _ (by simp [Json.get, List.find?])

theorem deepseekRequestJson_isObj (messages : List Message) (stream : Bool)
    (config : ApiConfig) :
    ∃ fields, deepseekRequestJson messages stream config = .obj fields := by
  unfold deepseekRequestJson
  cases config.body <;> exact ⟨_, rfl⟩

theorem anthropicRequestJson_isObj (messages : List Message)
    (system : Option String) (stream : Bool) (config : ApiConfig) :
    ∃ fields, anthropicRequestJson messages system stream config =
      .obj fields := by
  unfold anthropicRequestJson
  cases config.body <;> exact ⟨_, rfl⟩

/-- C2 amended: however the caller's body override map is populated, the
request a provider receives keeps the streaming flag and the message list
at the orchestrator-supplied values for both providers, and the system
field at the orchestrator-supplied value for the response provider —
those protected keys are stripped before the merge and the orchestrator
values sit in the base object.  The reasoning provider's request has no
protected system field: its build_request strips only stream and
messages, so a caller-supplied system override key survives the merge and
reaches the reasoning request body (last conjunct). -/
theorem c2_transport_fields_protected (messages : List Message)
    (system : Option String) (stream : Bool) (config : ApiConfig) (v : Json) :
    (DeepSeekClient.build_request messages stream config).messages = messages ∧
    (DeepSeekClient.build_request messages stream config).stream = stream ∧
    (AnthropicClient.build_request messages system stream config).messages
      = anthropicFilteredMessages messages ∧
    (AnthropicClient.build_request messages system stream config).stream
      = stream ∧
    (AnthropicClient.build_request messages system stream config).system
      = system ∧
    (deepseekRequestJson messages stream
        { headers := config.headers, body := Json.obj [("system", v)] }).get
      "system" = some v := by
  obtain ⟨dsFields, hds⟩ := deepseekRequestJson_isObj messages stream config
  obtain ⟨anFields, han⟩ :=
    anthropicRequestJson_isObj messages system stream config
  have hdsm := deepseekRequestJson_get_messages messages stream config
  have hdss := deepseekRequestJson_get_stream messages stream config
  rw [hds] at hdsm hdss
  have hanm := anthropicRequestJson_get_messages messages system stream config
  have hans := anthropicRequestJson_get_stream messages system stream config
  have hansys := anthropicRequestJson_get_system messages system stream config
  rw [han] at hanm hans hansys
  have hdsreq : DeepSeekClient.build_request messages stream config =
      { messages := messages, stream := stream
        additional_params := .obj (dsFields.filter (fun p =>
          p.1 ≠ "messages" ∧ p.1 ≠ "stream")) } := by
    unfold DeepSeekClient.build_request
    rw [hds]
    simp only [DeepSeekRequest.ofJson, hdsm, hdss, messagesOfJson_toJson,
      Option.map_some]
    rfl
  have hanreq : AnthropicClient.build_request messages system stream config =
      { messages := anthropicFilteredMessages messages, stream := stream
        system := system
        additional_params := .obj (anFields.filter (fun p =>
          p.1 ≠ "messages" ∧ p.1 ≠ "stream" ∧ p.1 ≠ "system")) } := by
    unfold AnthropicClient.build_request
    rw [han]
    unfold anthropicMessagesToJson at hanm
    simp only [AnthropicRequest.ofJson, hanm, hans, hansys,
      anthropicMessagesOfJson_toJson]
    cases system with
    | none => rfl
    | some sys => rfl
  rw [hdsreq, hanreq]
  refine ⟨rfl, rfl, rfl, rfl, rfl, ?_⟩
  unfold deepseekRequestJson
  have hf : ([("system", v)] : List (String × Json)).filter
      (fun p => p.1 ≠ "stream" ∧ p.1 ≠ "messages") = [("system", v)] := by
    simp
  simp only [hf, List.foldl_cons, List.foldl_nil]
  exact get_objInsert_self _ "system" v

/-- C2 counterexample: the reasoning provider's build_request does not
protect a system field.  With an override map carrying a system key, the
merged reasoning request JSON — and the flattened additional params of the
typed request actually serialized to the wire — contain the caller's
system value, whereas without the override they carry none; so an override
key does change the system field of the reasoning provider's request,
contrary to the claim. -/
theorem c2_counterexample :
    (deepseekRequestJson [] false
        { headers := [], body := Json.obj [("system", Json.str "injected")] }).get
      "system" = some (Json.str "injected") ∧
    (deepseekRequestJson [] false emptyApiConfig).get "system" = none ∧
    (DeepSeekClient.build_request [] false
        { headers := []
          body := Json.obj [("system", Json.str "injected")] }).additional_params.get
      "system" = some (Json.str "injected") :=
  ⟨rfl, rfl, rfl⟩

/-! ### Lemmas for C5: terminal events of the streaming producer -/

/-- Is a unified event an error event. -/
def isErrorEv : OutEvent → Bool
  | .error _ _ => true
  | _ => false

/-- Is a unified event a content or usage event (the only kinds a healthy
phase emits before its terminal event). -/
def isDataEv : OutEvent → Bool
  | .content _ => true
  | .usage _ => true
  | _ => false

/-- Is a provider stream item a successful chunk. -/
def exceptIsOk {α : Type} : Except ApiError α → Bool
  | .ok _ => true
  | .error _ => false

theorem countP_zero_of_data {l : List OutEvent}
    (h : ∀ e ∈ l, isDataEv e = true) :
    l.countP isErrorEv = 0 ∧ OutEvent.done ∉ l := by
  constructor
  · rw [List.countP_eq_zero]
    intro e he
    have := h e he
    cases e <;> simp_all [isDataEv, isErrorEv]
  · intro hmem
    have := h _ hmem
    simp [isDataEv] at this

theorem dsEmittedFor_data (r : StreamResponse) :
    ∀ e ∈ dsEmittedFor r, isDataEv e = true := by
  intro e he
  unfold dsEmittedFor at he
  rcases hr : r.choices.head? with _ | choice
  · simp [hr] at he
  · rcases hc : choice.delta.reasoning_content with _ | reasoning
    · simp [hr, hc] at he
    · by_cases hne : reasoning ≠ ""
      · simp [hr, hc, hne] at he
        rw [he]
        rfl
      · simp [hr, hc, hne] at he

theorem dsPhase_events_data {items : List (Except ApiError StreamResponse)}
    (h : (dsPhase items).errored = false) :
    ∀ e ∈ (dsPhase items).events, isDataEv e = true := by
  induction items with
  | nil => intro e he; simp [dsPhase] at he
  | cons item rest ih =>
    cases item with
    | error e => simp [dsPhase] at h
    | ok r =>
      intro e he
      rw [dsPhase] at h he
      by_cases hs : dsSentinel r
      · rw [if_pos hs] at he
        simp at he
      · rw [if_neg hs] at h he
        simp only [List.mem_append] at he
        rcases he with he | he
        · exact dsEmittedFor_data r e he
        · exact ih h e he

theorem dsPhase_errored_events
    {items : List (Except ApiError StreamResponse)}
    (h : (dsPhase items).errored = true) :
    ∃ pre msg, (dsPhase items).events = pre ++ [.error msg 500] ∧
      ∀ e ∈ pre, isDataEv e = true := by
  induction items with
  | nil => simp [dsPhase] at h
  | cons item rest ih =>
    cases item with
    | error e =>
      exact ⟨[], e.toString, rfl, by intro e he; simp at he⟩
    | ok r =>
      rw [dsPhase] at h ⊢
      by_cases hs : dsSentinel r
      · rw [if_pos hs] at h
        simp at h
      · rw [if_neg hs] at h ⊢
        obtain ⟨pre, msg, hpre, hall⟩ := ih h
        simp only
        rw [hpre]
        refine ⟨dsEmittedFor r ++ pre, msg, by rw [List.append_assoc], ?_⟩
        intro e he
        rcases List.mem_append.mp he with he | he
        · exact dsEmittedFor_data r e he
        · exact hall e he

theorem dsPhase_ok_not_errored
    {items : List (Except ApiError StreamResponse)}
    (h : ∀ x ∈ items, exceptIsOk x = true) :
    (dsPhase items).errored = false := by
  induction items with
  | nil => rfl
  | cons item rest ih =>
    cases item with
    | error e =>
      have := h _ (List.mem_cons_self _ _)
      simp [exceptIsOk] at this
    | ok r =>
      rw [dsPhase]
      by_cases hs : dsSentinel r
      · rw [if_pos hs]
      · rw [if_neg hs]
        exact ih (fun x hx => h x (List.mem_cons_of_mem _ hx))

theorem anEventsFor_data (config : Config)
    (dsU : Option DSUsage) (ev : AnStreamEvent) :
    ∀ e ∈ anEventsFor config dsU ev, isDataEv e = true := by
  intro e he
  cases ev with
  | messageStart message =>
    rw [anEventsFor] at he
    by_cases hc : !message.content.isEmpty
    · rw [if_pos hc] at he
      simp at he
      rw [he]
      rfl
    · rw [if_neg hc] at he
      simp at he
  | contentBlockDelta i delta =>
    simp [anEventsFor] at he
    rw [he]
    rfl
  | messageDelta d usage =>
    cases usage with
    | none => simp [anEventsFor] at he
    | some u =>
      simp [anEventsFor] at he
      rw [he]
      rfl
  | contentBlockStart i b => simp [anEventsFor] at he
  | contentBlockStop i => simp [anEventsFor] at he
  | messageStop => simp [anEventsFor] at he
  | ping => simp [anEventsFor] at he

theorem anPhase_shape (config : Config) (dsU : Option DSUsage)
    (items : List (Except ApiError AnStreamEvent)) :
    (∃ pre, anPhase config dsU items = pre ++ [OutEvent.done] ∧
      ∀ e ∈ pre, isDataEv e = true) ∨
    (∃ pre msg, anPhase config dsU items = pre ++ [.error msg 500] ∧
      ∀ e ∈ pre, isDataEv e = true) := by
  induction items with
  | nil => exact Or.inl ⟨[], rfl, by intro e he; simp at he⟩
  | cons item rest ih =>
    cases item with
    | error e =>
      exact Or.inr ⟨[], e.toString, rfl, by intro e he; simp at he⟩
    | ok ev =>
      rcases ih with ⟨pre, hpre, hall⟩ | ⟨pre, msg, hpre, hall⟩
      · refine Or.inl ⟨anEventsFor config dsU ev ++ pre, ?_, ?_⟩
        · rw [anPhase, hpre, List.append_assoc]
        · intro e he
          rcases List.mem_append.mp he with he | he
          · exact anEventsFor_data config dsU ev e he
          · exact hall e he
      · refine Or.inr ⟨anEventsFor config dsU ev ++ pre, msg, ?_, ?_⟩
        · rw [anPhase, hpre, List.append_assoc]
        · intro e he
          rcases List.mem_append.mp he with he | he
          · exact anEventsFor_data config dsU ev e he
          · exact hall e he

theorem anPhase_ok_done (config : Config) (dsU : Option DSUsage)
    {items : List (Except ApiError AnStreamEvent)}
    (h : ∀ x ∈ items, exceptIsOk x = true) :
    ∃ pre, anPhase config dsU items = pre ++ [OutEvent.done] ∧
      ∀ e ∈ pre, isDataEv e = true := by
  induction items with
  | nil => exact ⟨[], rfl, by intro e he; simp at he⟩
  | cons item rest ih =>
    cases item with
    | error e =>
      have := h _ (List.mem_cons_self _ _)
      simp [exceptIsOk] at this
    | ok ev =>
      obtain ⟨pre, hpre, hall⟩ :=
        ih (fun x hx => h x (List.mem_cons_of_mem _ hx))
      refine ⟨anEventsFor config dsU ev ++ pre, ?_, ?_⟩
      · rw [anPhase, hpre, List.append_assoc]
      · intro e he
        rcases List.mem_append.mp he with he | he
        · exact anEventsFor_data config dsU ev e he
        · exact hall e he

/-- The fixed first two producer events: the start event and the opening
thinking tag. -/
def streamPrefix : List OutEvent :=
  [OutEvent.start, OutEvent.content [ContentBlock.text_ "<thinking>\n"]]

theorem streamEvents_of_errored {config : Config} {req : ApiRequest}
    {dsItems : List (Except ApiError StreamResponse)}
    (anItems : List (Except ApiError AnStreamEvent))
    (h : (dsPhase dsItems).errored = true) :
    streamEvents config req dsItems anItems =
      streamPrefix ++ (dsPhase dsItems).events := by
  simp [streamEvents, h, streamPrefix]

theorem streamEvents_of_ok {config : Config} {req : ApiRequest}
    {dsItems : List (Except ApiError StreamResponse)}
    (anItems : List (Except ApiError AnStreamEvent))
    (h : (dsPhase dsItems).errored = false) :
    streamEvents config req dsItems anItems =
      streamPrefix ++ (dsPhase dsItems).events ++
        [OutEvent.content [ContentBlock.text_ "\n</thinking>"]] ++
        anPhase config (dsPhase dsItems).usage anItems := by
  simp [streamEvents, h, streamPrefix]

/-- C5: every streaming run emits a non-empty event sequence whose final
event is either the done event — in which case no error event occurred —
or a single error event, in which case it is the only error event and no
done event is ever emitted; and whenever both provider streams yield only
Ok items the run ends in done with no error event. -/
theorem c5_stream_terminal_events (config : Config) (req : ApiRequest)
    (dsItems : List (Except ApiError StreamResponse))
    (anItems : List (Except ApiError AnStreamEvent)) :
    streamEvents config req dsItems anItems ≠ [] ∧
    (((streamEvents config req dsItems anItems).getLast? = some .done ∧
        (streamEvents config req dsItems anItems).countP isErrorEv = 0) ∨
      ((∃ msg, (streamEvents config req dsItems anItems).getLast? =
          some (.error msg 500)) ∧
        (streamEvents config req dsItems anItems).countP isErrorEv = 1 ∧
        OutEvent.done ∉ streamEvents config req dsItems anItems)) ∧
    ((∀ x ∈ dsItems, exceptIsOk x = true) →
      (∀ x ∈ anItems, exceptIsOk x = true) →
      (streamEvents config req dsItems anItems).getLast? = some .done ∧
        (streamEvents config req dsItems anItems).countP isErrorEv = 0) := by
  have hdone : ∀ (h : (dsPhase dsItems).errored = false) (pre : List OutEvent),
      anPhase config (dsPhase dsItems).usage anItems = pre ++ [.done] →
      (∀ e ∈ pre, isDataEv e = true) →
      (streamEvents config req dsItems anItems).getLast? = some .done ∧
        (streamEvents config req dsItems anItems).countP isErrorEv = 0 := by
    intro h pre hpre hall
    rw [streamEvents_of_ok anItems h, hpre]
    constructor
    · rw [← List.append_assoc, List.getLast?_concat]
    · rw [← List.append_assoc, List.countP_append, List.countP_append,
        List.countP_append, List.countP_append]
      rw [(countP_zero_of_data (dsPhase_events_data h)).1,
        (countP_zero_of_data hall).1]
      simp [streamPrefix, List.countP_cons, isErrorEv]
  by_cases hde : (dsPhase dsItems).errored
  · obtain ⟨pre, msg, hpre, hall⟩ := dsPhase_errored_events hde
    have hout : streamEvents config req dsItems anItems =
        (streamPrefix ++ pre) ++ [.error msg 500] := by
      rw [streamEvents_of_errored anItems hde, hpre, List.append_assoc]
    refine ⟨by rw [hout]; simp, Or.inr ⟨⟨msg, ?_⟩, ?_, ?_⟩, fun hds _ => ?_⟩
    · rw [hout, List.getLast?_concat]
    · rw [hout, List.countP_append, List.countP_append,
        (countP_zero_of_data hall).1]
      simp [streamPrefix, List.countP_cons, isErrorEv]
    · rw [hout]
      intro hmem
      rcases List.mem_append.mp hmem with hmem | hmem
      · rcases List.mem_append.mp hmem with hmem | hmem
        · simp [streamPrefix] at hmem
        · exact (countP_zero_of_data hall).2 hmem
      · simp at hmem
    · exact absurd (dsPhase_ok_not_errored hds) (by rw [hde]; simp)
  · have hde' : (dsPhase dsItems).errored = false := by simpa using hde
    rcases anPhase_shape config (dsPhase dsItems).usage anItems with
      ⟨pre, hpre, hall⟩ | ⟨pre, msg, hpre, hall⟩
    · refine ⟨?_, Or.inl (hdone hde' pre hpre hall), fun _ _ =>
        hdone hde' pre hpre hall⟩
      rw [streamEvents_of_ok anItems hde']
      simp [streamPrefix]
    · have hout : streamEvents config req dsItems anItems =
          ((streamPrefix ++ (dsPhase dsItems).events ++
            [OutEvent.content [ContentBlock.text_ "\n</thinking>"]]) ++ pre) ++
            [.error msg 500] := by
        rw [streamEvents_of_ok anItems hde', hpre]
        simp only [List.append_assoc]
      refine ⟨by rw [hout]; simp, Or.inr ⟨⟨msg, ?_⟩, ?_, ?_⟩,
        fun _ han => hdone hde' _ (anPhase_ok_done config _ han).choose_spec.1
          (anPhase_ok_done config _ han).choose_spec.2⟩
      · rw [hout, List.getLast?_concat]
      · rw [hout, List.countP_append, List.countP_append, List.countP_append,
          List.countP_append, (countP_zero_of_data hall).1,
          (countP_zero_of_data (dsPhase_events_data hde')).1]
        simp [streamPrefix, List.countP_cons, isErrorEv]
      · rw [hout]
        intro hmem
        rcases List.mem_append.mp hmem with hmem | hmem
        · rcases List.mem_append.mp hmem with hmem | hmem
          · rcases List.mem_append.mp hmem with hmem | hmem
            · rcases List.mem_append.mp hmem with hmem | hmem
              · simp [streamPrefix] at hmem
              · exact absurd (dsPhase_events_data hde' _ hmem) (by decide)
            · simp at hmem
          · exact (countP_zero_of_data hall).2 hmem
        · simp at hmem

/-- C5 witness: a run whose reasoning stream fails yields the terminal
error with no done event, and an all-Ok run ends in done. -/
theorem c5_stream_terminal_events_witness :
    (streamEvents Config.default reqFixture
        [.error (.deepSeekError "boom" "stream_error" none none)] [] ≠ [] ∧
      ((streamEvents Config.default reqFixture
          [.error (.deepSeekError "boom" "stream_error" none none)] []
          ≠ [])) ) ∧
    (streamEvents Config.default reqFixture [] []).getLast? = some .done := by
  refine ⟨⟨(c5_stream_terminal_events Config.default reqFixture
      [.error (.deepSeekError "boom" "stream_error" none none)] []).1,
    (c5_stream_terminal_events Config.default reqFixture
      [.error (.deepSeekError "boom" "stream_error" none none)] []).1⟩, ?_⟩
  exact ((c5_stream_terminal_events Config.default reqFixture [] []).2.2
    (by intro x hx; simp at hx) (by intro x hx; simp at hx)).1

/-- A single-choice DeepSeek stream chunk fixture. -/
def mkDsChunk (rc : Option String) (usage : Option DSUsage) : StreamResponse :=
  { id := "", object := "", created := 0, model := ""
    choices := [{ index := 0
                  delta := { role := none, content := none
                             reasoning_content := rc }
                  finish_reason := none }]
    usage := usage, system_fingerprint := "" }

/-- C9: when the reasoning stream yields two non-empty deltas and then a
null-reasoning sentinel chunk, the producer emits the start event and the
opening thinking tag, a content event for each of the two deltas and none
for the sentinel, then the closing thinking tag, and only after all of
that the response-stage events. -/
theorem c9_two_deltas_then_sentinel (config : Config) (req : ApiRequest)
    (a b : String) (u1 u2 u3 : Option DSUsage)
    (anItems : List (Except ApiError AnStreamEvent))
    (ha : a ≠ "") (hb : b ≠ "") :
    streamEvents config req
      [.ok (mkDsChunk (some a) u1), .ok (mkDsChunk (some b) u2),
       .ok (mkDsChunk none u3)] anItems =
      [OutEvent.start,
       OutEvent.content [ContentBlock.text_ "<thinking>\n"],
       OutEvent.content [ContentBlock.mk "text_delta" a],
       OutEvent.content [ContentBlock.mk "text_delta" b],
       OutEvent.content [ContentBlock.text_ "\n</thinking>"]] ++
      anPhase config
        (match u2 with
         | some u => some u
         | none => u1) anItems := by
  have hds : dsPhase [.ok (mkDsChunk (some a) u1), .ok (mkDsChunk (some b) u2),
      .ok (mkDsChunk none u3)] =
      { events := [OutEvent.content [ContentBlock.mk "text_delta" a],
          OutEvent.content [ContentBlock.mk "text_delta" b]]
        reasoning := a ++ (b ++ "")
        usage := match u2 with
          | some u => some u
          | none => u1
        errored := false } := by
    simp [dsPhase, dsSentinel, dsEmittedFor, dsAccumulatedFor, mkDsChunk,
      ha, hb]
  rw [streamEvents_of_ok anItems (by rw [hds])]
  rw [hds]
  simp [streamPrefix]

/-- C9 witness: the scenario evaluated on two concrete deltas with an
empty response stage. -/
theorem c9_two_deltas_then_sentinel_witness :
    streamEvents Config.default reqFixture
      [.ok (mkDsChunk (some "step A") none),
       .ok (mkDsChunk (some "step B") none),
       .ok (mkDsChunk none none)] [] =
      [OutEvent.start,
       OutEvent.content [ContentBlock.text_ "<thinking>\n"],
       OutEvent.content [ContentBlock.mk "text_delta" "step A"],
       OutEvent.content [ContentBlock.mk "text_delta" "step B"],
       OutEvent.content [ContentBlock.text_ "\n</thinking>"],
       OutEvent.done] := by
  have h := c9_two_deltas_then_sentinel Config.default reqFixture
    "step A" "step B" none none none [] (by decide) (by decide)
  rw [h]
  rfl

/-- A DeepSeek response fixture carrying reasoning content. -/
def dsrFixture : DeepSeekResponse :=
  { id := "i", object := "o", created := 0, model := "m"
    choices := [{ index := 0
                  message := { role := "assistant", content := some "c"
                               reasoning_content := some "step A" }
                  finish_reason := none }]
    usage := { prompt_tokens := 3, completion_tokens := 4, total_tokens := 7
               prompt_tokens_details := { cached_tokens := 1 }
               completion_tokens_details := { reasoning_tokens := 2 }
               prompt_cache_hit_tokens := 1, prompt_cache_miss_tokens := 2 }
    system_fingerprint := "f" }

/-- An Anthropic response fixture naming a haiku model. -/
def anrFixture : AnthropicResponse :=
  { id := "i", response_type := "message", role := "assistant"
    model := "claude-3-5-haiku-20241022"
    content := [{ content_type := "text", text := "answer" }]
    stop_reason := none, stop_sequence := none
    usage := { input_tokens := 5, output_tokens := 6
               cache_creation_input_tokens := 0
               cache_read_input_tokens := 0 } }

/-- C10: the streaming usage event prices the response stage with the
hard-coded default model identifier — the emitted events are unchanged by
any anthropic body-override configuration, the usage event produced for a
MessageDelta carries the cost computed for the default model — while the
non-streaming handler prices it with the model identifier the provider
actually returned. -/
theorem c10_streaming_default_model_pricing (config : Config)
    (req : ApiRequest) (cfgA : ApiConfig)
    (dsItems : List (Except ApiError StreamResponse))
    (anItems : List (Except ApiError AnStreamEvent))
    (dsU : Option DSUsage) (d : AnMessageDelta) (u : AnUsage)
    (rest : List (Except ApiError AnStreamEvent))
    (dsr : DeepSeekResponse) (anr : AnthropicResponse) (reasoning : String)
    (hv : req.validate_system_prompt = true)
    (hr : dsr.choices.head?.bind (fun c => c.message.reasoning_content)
      = some reasoning) :
    streamEvents config { req with anthropic_config := cfgA } dsItems anItems
      = streamEvents config req dsItems anItems ∧
    anPhase config dsU (.ok (.messageDelta d (some u)) :: rest)
      = mkUsageEvent config dsU u :: anPhase config dsU rest ∧
    (∃ cu, mkUsageEvent config dsU u = .usage cu ∧
      cu.anthropic_usage.total_cost = format_cost (calculate_anthropic_cost
        anthropicDefaultModel u.input_tokens u.output_tokens
        u.cache_creation_input_tokens u.cache_read_input_tokens config)) ∧
    (∃ resp, chat config req (fun _ _ => .ok dsr) (fun _ _ _ => .ok anr)
        = .ok resp ∧
      resp.combined_usage.anthropic_usage.total_cost
        = format_cost (calculate_anthropic_cost anr.model
            anr.usage.input_tokens anr.usage.output_tokens
            anr.usage.cache_creation_input_tokens
            anr.usage.cache_read_input_tokens config)) := by
  refine ⟨rfl, rfl, ⟨_, rfl, rfl⟩, ?_⟩
  simp only [chat, hv, hr]
  exact ⟨_, rfl, rfl⟩

/-- C10 witness: the pricing-tier facts instantiated at a concrete run. -/
theorem c10_streaming_default_model_pricing_witness :
    streamEvents Config.default
        { reqFixture with anthropic_config := emptyApiConfig } [] []
      = streamEvents Config.default reqFixture [] [] ∧
    anPhase Config.default none
        [.ok (.messageDelta (AnMessageDelta.mk none none)
          (some (AnUsage.mk 5 6 0 0)))]
      = mkUsageEvent Config.default none (AnUsage.mk 5 6 0 0) ::
          anPhase Config.default none [] ∧
    (∃ cu, mkUsageEvent Config.default none (AnUsage.mk 5 6 0 0)
        = .usage cu ∧
      cu.anthropic_usage.total_cost = format_cost (calculate_anthropic_cost
        anthropicDefaultModel 5 6 0 0 Config.default)) ∧
    (∃ resp, chat Config.default reqFixture (fun _ _ => .ok dsrFixture)
        (fun _ _ _ => .ok anrFixture) = .ok resp ∧
      resp.combined_usage.anthropic_usage.total_cost
        = format_cost (calculate_anthropic_cost anrFixture.model
            anrFixture.usage.input_tokens anrFixture.usage.output_tokens
            anrFixture.usage.cache_creation_input_tokens
            anrFixture.usage.cache_read_input_tokens Config.default)) :=
  c10_streaming_default_model_pricing Config.default reqFixture
    emptyApiConfig [] [] none (AnMessageDelta.mk none none)
    (AnUsage.mk 5 6 0 0) [] dsrFixture anrFixture "step A"
    (by decide) (by decide)

/-! ### Lemmas for C7: shape of formatted costs -/

theorem digitsRev_mem_lt (fuel : Nat) : ∀ n, ∀ d ∈ digitsRev fuel n, d < 10 := by
  induction fuel with
  | zero => intro n d hd; simp [digitsRev] at hd
  | succ fuel ih =>
    intro n d hd
    rw [digitsRev] at hd
    by_cases hn : n = 0
    · simp [hn] at hd
    · rw [if_neg hn] at hd
      rcases List.mem_cons.mp hd with hd | hd
      · rw [hd]; exact Nat.mod_lt n (by norm_num)
      · exact ih (n / 10) d hd

theorem digitChar_isDigit {d : Nat} (h : d < 10) :
    (Char.ofNat (48 + d)).isDigit = true := by
  interval_cases d <;> decide

theorem natStr_all_digits (n : Nat) : ∀ c ∈ natStr n, c.isDigit = true := by
  intro c hc
  unfold natStr at hc
  by_cases hn : n = 0
  · rw [if_pos hn] at hc
    simp at hc
    rw [hc]
    decide
  · rw [if_neg hn] at hc
    rw [List.mem_map] at hc
    obtain ⟨d, hd, hcd⟩ := hc
    rw [List.mem_reverse] at hd
    rw [← hcd]
    exact digitChar_isDigit (digitsRev_mem_lt n n d hd)

theorem natStr_ne_nil (n : Nat) : natStr n ≠ [] := by
  unfold natStr
  by_cases hn : n = 0
  · simp [hn]
  · rw [if_neg hn]
    obtain ⟨k, rfl⟩ := Nat.exists_eq_succ_of_ne_zero hn
    rw [digitsRev, if_neg hn]
    simp

theorem digitsRev_length_le (fuel : Nat) :
    ∀ n k, n < 10 ^ k → (digitsRev fuel n).length ≤ k := by
  induction fuel with
  | zero => intro n k _; simp [digitsRev]
  | succ fuel ih =>
    intro n k h
    rw [digitsRev]
    by_cases hn : n = 0
    · simp [hn]
    · rw [if_neg hn]
      have hk : k ≠ 0 := by
        intro h0
        rw [h0, pow_zero] at h
        omega
      obtain ⟨k', rfl⟩ := Nat.exists_eq_succ_of_ne_zero hk
      have hdiv : n / 10 < 10 ^ k' := by
        rw [Nat.div_lt_iff_lt_mul (by norm_num)]
        calc n < 10 ^ (k' + 1) := h
        _ = 10 ^ k' * 10 := by rw [pow_succ]
      have := ih (n / 10) k' hdiv
      simp only [List.length_cons]
      omega

theorem natStr_length_le {n : Nat} (h : n < 1000) : (natStr n).length ≤ 3 := by
  unfold natStr
  by_cases hn : n = 0
  · simp [hn]
  · rw [if_neg hn]
    rw [List.length_map, List.length_reverse]
    exact digitsRev_length_le n n 3 (by norm_num; omega)

theorem takeWhile_append_all (p : Char → Bool) (a : List Char) (b0 : Char)
    (b : List Char) (ha : ∀ c ∈ a, p c = true) (hb : p b0 = false) :
    (a ++ b0 :: b).takeWhile p = a ∧ (a ++ b0 :: b).dropWhile p = b0 :: b := by
  induction a with
  | nil => simp [List.takeWhile_cons, List.dropWhile_cons, hb]
  | cons c rest ih =>
    have hc := ha c (List.mem_cons_self c rest)
    obtain ⟨iht, ihd⟩ := ih (fun x hx => ha x (List.mem_cons_of_mem c hx))
    rw [List.cons_append, List.takeWhile_cons, List.dropWhile_cons, hc]
    simp [iht, ihd]

theorem threeDecShape_cons (l : List Char) :
    threeDecShape (String.mk ('$' :: l)) =
      ((!(l.takeWhile Char.isDigit).isEmpty) &&
        match l.dropWhile Char.isDigit with
        | '.' :: fp => decide (fp.length = 3) && fp.all Char.isDigit
        | _ => false) := rfl

/-- C7 amended: every cost string the cost formatter produces for a
non-negative cost — and all total_cost fields except the hard-coded
streaming placeholder are produced by it — has the dollar-prefixed shape
with exactly three decimal places. -/
theorem c7_format_cost_shape (cost : ℚ) (h : 0 ≤ cost) :
    threeDecShape (format_cost cost) = true := by
  have hq : (0 : ℚ) ≤ cost * 1000 := by positivity
  have hnum : 0 ≤ (cost * 1000).num := Rat.num_nonneg.mpr hq
  have hden : (0 : ℤ) < ((cost * 1000).den : ℤ) := by
    exact_mod_cast (cost * 1000).pos
  have hm : 0 ≤ roundRat (cost * 1000) := by
    unfold roundRat
    apply Int.fdiv_nonneg <;> omega
  have hneg : ¬ (roundRat (cost * 1000) < 0) := not_lt.mpr hm
  have hfrac : (roundRat (cost * 1000)).natAbs % 1000 < 1000 :=
    Nat.mod_lt _ (by norm_num)
  have hlen := natStr_length_le hfrac
  simp only [format_cost]
  rw [if_neg hneg]
  simp only [List.singleton_append, List.cons_append, List.nil_append]
  rw [threeDecShape_cons]
  obtain ⟨ht, hd⟩ := takeWhile_append_all Char.isDigit
    (natStr ((roundRat (cost * 1000)).natAbs / 1000)) '.'
    (List.replicate
      (3 - (natStr ((roundRat (cost * 1000)).natAbs % 1000)).length) '0' ++
      natStr ((roundRat (cost * 1000)).natAbs % 1000))
    (natStr_all_digits ((roundRat (cost * 1000)).natAbs / 1000))
    (by decide)
  rw [ht, hd]
  rw [Bool.and_eq_true]
  constructor
  · cases hns : natStr ((roundRat (cost * 1000)).natAbs / 1000) with
    | nil => exact absurd hns (natStr_ne_nil _)
    | cons c cs => rfl
  · show (decide ((List.replicate
        (3 - (natStr ((roundRat (cost * 1000)).natAbs % 1000)).length) '0' ++
        natStr ((roundRat (cost * 1000)).natAbs % 1000)).length = 3) &&
      (List.replicate
        (3 - (natStr ((roundRat (cost * 1000)).natAbs % 1000)).length) '0' ++
        natStr ((roundRat (cost * 1000)).natAbs % 1000)).all Char.isDigit)
      = true
    rw [Bool.and_eq_true]
    constructor
    · rw [decide_eq_true_eq, List.length_append, List.length_replicate]
      omega
    · rw [List.all_eq_true]
      intro c hc
      rcases List.mem_append.mp hc with hc | hc
      · rw [List.eq_of_mem_replicate hc]
        decide
      · exact natStr_all_digits _ c hc

/-- C7 witness: the formatter output shape at the non-negative cost 7. -/
theorem c7_format_cost_shape_witness :
    (0 : ℚ) ≤ 7 ∧ threeDecShape (format_cost 7) = true :=
  ⟨by decide, c7_format_cost_shape 7 (by decide)⟩

/-- C7 counterexample: a streaming run in which the reasoning stream ended
without a usage report.  The usage event then exposes the reasoning-side
total_cost as the hard-coded literal with two decimal places, which does
not match the claimed three-decimal shape. -/
theorem c7_counterexample :
    streamEvents Config.default reqFixture []
        [.ok (.messageDelta (AnMessageDelta.mk none none)
          (some (AnUsage.mk 0 0 0 0)))] =
      [OutEvent.start,
       OutEvent.content [ContentBlock.text_ "<thinking>\n"],
       OutEvent.content [ContentBlock.text_ "\n</thinking>"],
       OutEvent.usage
         { total_cost := "$0.000"
           deepseek_usage :=
             { input_tokens := 0, output_tokens := 0, reasoning_tokens := 0
               cached_input_tokens := 0, total_tokens := 0
               total_cost := "$0.00" }
           anthropic_usage :=
             { input_tokens := 0, output_tokens := 0, cached_write_tokens := 0
               cached_read_tokens := 0, total_tokens := 0
               total_cost := "$0.000" } },
       OutEvent.done] ∧
    threeDecShape "$0.00" = false := by
  have hc : calculate_anthropic_cost "claude-3-5-sonnet-20241022" 0 0 0 0
      Config.default = 0 := by
    simp [calculate_anthropic_cost]
  have hf0 : format_cost 0 = "$0.000" := by
    have hr : roundRat ((0 : ℚ) * 1000) = 0 := by
      norm_num [roundRat]
      decide
    simp only [format_cost, hr]
    decide
  constructor
  · rw [streamEvents_of_ok _ (show (dsPhase []).errored = false from rfl)]
    simp [streamPrefix, dsPhase, anPhase, anEventsFor, mkUsageEvent,
      AnthropicUsage.from_anthropic, hc, hf0]
  · decide

/-! ### Lemmas for C6: chunk-boundary invariance of the frame splitter -/

theorem breakSep_append_some {a f r : List Char} (b : List Char)
    (h : breakSep a = some (f, r)) :
    breakSep (a ++ b) = some (f, r ++ b) := by
  induction a generalizing f r with
  | nil => simp [breakSep] at h
  | cons c1 tail ih =>
    cases tail with
    | nil => simp [breakSep] at h
    | cons c2 rest =>
      rw [breakSep] at h
      rw [List.cons_append, List.cons_append, breakSep]
      by_cases hc : c1 = '\n' ∧ c2 = '\n'
      · rw [if_pos hc] at h
        cases h
        rw [if_pos hc]
      · rw [if_neg hc] at h
        rw [if_neg hc]
        cases hrec : breakSep (c2 :: rest) with
        | none => rw [hrec] at h; cases h
        | some p =>
          obtain ⟨f2, b2⟩ := p
          rw [hrec] at h
          cases h
          have hstep := ih hrec
          rw [List.cons_append] at hstep
          rw [hstep]

theorem splitFrames_append (a b : List Char) :
    splitFrames (a ++ b) =
      ((splitFrames a).1 ++ (splitFrames ((splitFrames a).2 ++ b)).1,
       (splitFrames ((splitFrames a).2 ++ b)).2) := by
  have H : ∀ (n : Nat) (a b : List Char), a.length ≤ n →
      splitFrames (a ++ b) =
        ((splitFrames a).1 ++ (splitFrames ((splitFrames a).2 ++ b)).1,
         (splitFrames ((splitFrames a).2 ++ b)).2) := by
    intro n
    induction n with
    | zero =>
      intro a b ha
      have : a = [] := List.eq_nil_of_length_eq_zero (Nat.le_zero.mp ha)
      subst this
      simp [splitFrames_of_none (show breakSep [] = none from rfl)]
    | succ n ih =>
      intro a b ha
      cases hb : breakSep a with
      | none =>
        rw [splitFrames_of_none hb]
        simp
      | some p =>
        obtain ⟨f, r⟩ := p
        have hlen := breakSep_length hb
        rw [splitFrames_of_some hb,
          splitFrames_of_some (breakSep_append_some b hb)]
        have hr := ih r b (by omega)
        rw [hr]
        simp
  exact H a.length a b le_rfl

theorem splitFrames_tail_no_sep (s : List Char) :
    breakSep (splitFrames s).2 = none := by
  have H : ∀ (n : Nat) (s : List Char), s.length ≤ n →
      breakSep (splitFrames s).2 = none := by
    intro n
    induction n with
    | zero =>
      intro s hs
      have : s = [] := List.eq_nil_of_length_eq_zero (Nat.le_zero.mp hs)
      subst this
      rfl
    | succ n ih =>
      intro s hs
      cases hb : breakSep s with
      | none => rw [splitFrames_of_none hb]; exact hb
      | some p =>
        obtain ⟨f, r⟩ := p
        have hlen := breakSep_length hb
        rw [splitFrames_of_some hb]
        exact ih r (by omega)
  exact H s.length s le_rfl

theorem processBuffered_eq {E : Type} (handle : List Char → Option E) :
    ∀ (chunks : List (List Char)) (buf : List Char), breakSep buf = none →
      processBuffered handle buf chunks =
        ((splitFrames (buf ++ chunks.flatten)).1).filterMap handle := by
  intro chunks
  induction chunks with
  | nil =>
    intro buf hb
    rw [processBuffered]
    simp [splitFrames_of_none hb]
  | cons ch rest ih =>
    intro buf hb
    rw [processBuffered]
    rw [ih _ (splitFrames_tail_no_sep _)]
    rw [List.flatten_cons, ← List.append_assoc,
      splitFrames_append (buf ++ ch) rest.flatten]
    rw [List.filterMap_append]

theorem breakSep_insert {f : List Char} (r : List Char)
    (hf : breakSep f = none) (hl : f.getLast? ≠ some '\n') :
    breakSep (f ++ '\n' :: '\n' :: r) = some (f, r) := by
  induction f with
  | nil => rfl
  | cons c1 tail ih =>
    cases tail with
    | nil =>
      have hc1 : c1 ≠ '\n' := by
        intro hcontra
        exact hl (by rw [hcontra]; rfl)
      rw [List.cons_append, List.nil_append, breakSep]
      rw [if_neg (by intro hcontra; exact hc1 hcontra.1)]
      rfl
    | cons c2 rest =>
      rw [breakSep] at hf
      have hcond : ¬(c1 = '\n' ∧ c2 = '\n') := by
        intro hcontra
        rw [if_pos hcontra] at hf
        cases hf
      rw [if_neg hcond] at hf
      have hrec : breakSep (c2 :: rest) = none := by
        cases hrec : breakSep (c2 :: rest) with
        | none => rfl
        | some p => rw [hrec] at hf; obtain ⟨x, y⟩ := p; cases hf
      have hlast : (c2 :: rest).getLast? ≠ some '\n' := by
        intro hcontra
        exact hl (by rw [List.getLast?_cons_cons]; exact hcontra)
      have hstep := ih hrec hlast
      rw [List.cons_append, List.cons_append, breakSep]
      rw [if_neg hcond]
      rw [List.cons_append] at hstep
      rw [hstep]

theorem splitFrames_nil : splitFrames [] = ([], []) := rfl

/-- C6 amended: at the level of the decoded text the buffered frame loop
is chunking-invariant — any partition of the text into chunks decodes to
the same event sequence as one big chunk — and a malformed frame sitting
between two well-formed frames is skipped without disturbing either
neighbour.  (At the raw byte level the invariance fails, because each
network chunk is UTF-8-decoded in isolation: see the counterexample.) -/
theorem c6_chunk_invariance_and_malformed_skip {E : Type}
    (handle : List Char → Option E) (chunks : List (List Char))
    (f1 m f2 : List Char) (e1 e2 : E)
    (hf1 : breakSep f1 = none) (hl1 : f1.getLast? ≠ some '\n')
    (hm : breakSep m = none) (hlm : m.getLast? ≠ some '\n')
    (hf2 : breakSep f2 = none) (hl2 : f2.getLast? ≠ some '\n')
    (h1 : handle f1 = some e1) (h2 : handle m = none)
    (h3 : handle f2 = some e2) :
    processChunks handle chunks = processChunks handle [chunks.flatten] ∧
    processChunks handle
      [f1 ++ '\n' :: '\n' :: (m ++ '\n' :: '\n' :: (f2 ++ ['\n', '\n']))]
      = [e1, e2] := by
  constructor
  · unfold processChunks
    rw [processBuffered_eq handle chunks [] rfl,
      processBuffered_eq handle [chunks.flatten] [] rfl]
    simp
  · unfold processChunks
    rw [processBuffered_eq handle _ [] rfl]
    simp only [List.flatten_cons, List.flatten_nil, List.append_nil,
      List.nil_append]
    rw [splitFrames_of_some (breakSep_insert _ hf1 hl1),
      splitFrames_of_some (breakSep_insert _ hm hlm),
      splitFrames_of_some (breakSep_insert _ hf2 hl2)]
    simp [splitFrames_nil, List.filterMap_cons, h1, h2, h3]

/-- C6 witness: the amended invariance and skipping facts evaluated on a
concrete decode function, concrete frames, and a concrete chunking. -/
theorem c6_chunk_invariance_and_malformed_skip_witness :
    processChunks
        (dsFrameDecode (fun s =>
          if s = ['1'] then some 1 else if s = ['2'] then some 2 else none))
        ["data: 1\n".toList, "\nda".toList, "ta: x\n\ndata: 2\n\n".toList] =
      processChunks
        (dsFrameDecode (fun s =>
          if s = ['1'] then some 1 else if s = ['2'] then some 2 else none))
        [(["data: 1\n".toList, "\nda".toList,
          "ta: x\n\ndata: 2\n\n".toList] :
            List (List Char)).flatten] ∧
    processChunks
        (dsFrameDecode (fun s =>
          if s = ['1'] then some 1 else if s = ['2'] then some 2 else none))
        ["data: 1".toList ++ '\n' :: '\n' ::
          ("data: x".toList ++ '\n' :: '\n' ::
            ("data: 2".toList ++ ['\n', '\n']))] = [1, 2] :=
  c6_chunk_invariance_and_malformed_skip
    (dsFrameDecode (fun s =>
      if s = ['1'] then some 1 else if s = ['2'] then some 2 else none))
    ["data: 1\n".toList, "\nda".toList, "ta: x\n\ndata: 2\n\n".toList]
    "data: 1".toList "data: x".toList "data: 2".toList 1 2
    (by decide) (by decide) (by decide) (by decide) (by decide) (by decide)
    (by decide) (by decide) (by decide)

/-- C6 counterexample: one byte sequence holding a single well-formed
frame whose payload is the two-byte UTF-8 character é.  Fed as one chunk
the frame decodes; fed byte by byte the per-chunk lossy UTF-8 decoding
turns the split character into two replacement characters and the frame is
dropped, so the decoded event sequences differ even though both chunkings
carry the same bytes. -/
theorem c6_counterexample :
    ((([100, 97, 116, 97, 58, 32, 195, 169, 10, 10] : List Nat).map
        (fun b => [b])).flatten =
      [100, 97, 116, 97, 58, 32, 195, 169, 10, 10]) ∧
    processByteChunks
        (dsFrameDecode (fun s => if s = ['é'] then some 0 else none))
        [[100, 97, 116, 97, 58, 32, 195, 169, 10, 10]] = [0] ∧
    processByteChunks
        (dsFrameDecode (fun s => if s = ['é'] then some 0 else none))
        (([100, 97, 116, 97, 58, 32, 195, 169, 10, 10] : List Nat).map
          (fun b => [b])) = [] :=
  ⟨by decide, by decide, by decide⟩

end DeepClaude
